import Mathlib

/-!
Verification of the voltage-analytics core of the
`PVP-elektros-stebesena/elektros-stebesenos-sistema` repository.

Shallow embedding conventions:
* JS `number` voltages, poll intervals and percentages are modelled as `ℚ`
  (the source never relies on floating-point rounding for the properties
  proved here; divisions such as `compliant / total * 100` and
  `n / maxPoints` are modelled exactly).
* Timestamps (`Date`) are modelled as `ℕ` milliseconds since the Unix epoch
  in UTC; `date.getTime()` is the number itself.  `setSeconds(0,0)` followed
  by flooring the minutes to a multiple of 10 coincides, in UTC, with
  flooring the epoch-milliseconds to a multiple of 600 000.
* `Date | null` / optional fields become `Option`.
* The JS `±Infinity` sentinels stored in the deviation tracker before any
  deviation is open are modelled as `none`; `Math.min(Infinity, v) = v`
  becomes `minWithInf none v = v` (and symmetrically for `max`).
-/

namespace Elektros

/- Constants from `src/server/src/config/eso.ts` (`export const ESO`).
Voltage/second thresholds that the analytics compare against `ℚ` values are
kept as `ℚ`; window sizes used for time arithmetic are kept as `ℕ`. -/
namespace ESO

def NOMINAL_VOLTAGE_1PH : ℚ := 230

def VOLTAGE_MIN_1PH : ℚ := 220

def VOLTAGE_MAX_1PH : ℚ := 240

/-- RMS aggregation window duration in minutes. -/
def WINDOW_MINUTES : ℕ := 10

/-- Total seconds in one window. -/
def WINDOW_SECONDS : ℕ := 600

/-- Max allowed out-of-bounds seconds within a 600 s window (5% of 600). -/
def WINDOW_OOB_MAX_SECONDS : ℚ := 30

/-- Weekly compliance: at least 95% of 10-min windows must pass. -/
def WEEKLY_COMPLIANCE_PCT : ℚ := 95

/-- Long supply interruption threshold: voltage gone for more than 3 minutes. -/
def LONG_INTERRUPTION_SECONDS : ℚ := 180

/-- Voltage below this is considered zero / supply lost. -/
def VOLTAGE_ZERO_THRESHOLD : ℚ := 10

end ESO

/-- `type Phase = 'L1' | 'L2' | 'L3'` from `config/eso.ts`. -/
inductive Phase where
  | L1
  | L2
  | L3
deriving DecidableEq, Repr

/-- `export const PHASES: Phase[] = ['L1', 'L2', 'L3']`. -/
def PHASES : List Phase := [Phase.L1, Phase.L2, Phase.L3]

/-- `type AnomalyType` from `config/eso.ts`. -/
inductive AnomalyType where
  | LONG_INTERRUPTION
  | SHORT_INTERRUPTION
  | VOLTAGE_DEVIATION
deriving DecidableEq, Repr

/-- `type Severity` from `config/eso.ts`. -/
inductive Severity where
  | WARNING
  | CRITICAL
deriving DecidableEq, Repr

/-- `interface VoltageReading` from `services/voltageAnalysis.ts`:
a timestamp (ms since epoch) plus the three phase voltages. -/
structure VoltageReading where
  timestamp : ℕ
  voltage_l1 : ℚ
  voltage_l2 : ℚ
  voltage_l3 : ℚ
deriving DecidableEq, Repr

/-- `isVoltageInBounds` (voltageAnalysis.ts line 68):
`voltage >= ESO.VOLTAGE_MIN_1PH && voltage <= ESO.VOLTAGE_MAX_1PH`. -/
def isVoltageInBounds (voltage : ℚ) : Bool :=
  decide (ESO.VOLTAGE_MIN_1PH ≤ voltage) && decide (voltage ≤ ESO.VOLTAGE_MAX_1PH)

/-- `isVoltageZero` (voltageAnalysis.ts line 73):
`voltage < ESO.VOLTAGE_ZERO_THRESHOLD`. -/
def isVoltageZero (voltage : ℚ) : Bool :=
  decide (voltage < ESO.VOLTAGE_ZERO_THRESHOLD)

/-- `getVoltageForPhase` (voltageAnalysis.ts line 78). -/
def getVoltageForPhase (reading : VoltageReading) (phase : Phase) : ℚ :=
  match phase with
  | Phase.L1 => reading.voltage_l1
  | Phase.L2 => reading.voltage_l2
  | Phase.L3 => reading.voltage_l3

/-- `interface RmsWindowResult` (voltageAnalysis.ts lines 26-39).
The source additionally stores `rmsVoltageL{1,2,3}` — a floating-point
`sqrt(mean of squares)` rounded to three decimals.  No claim refers to the
RMS values; the irrational square root has no exact `ℚ` counterpart, so
those three fields are not carried in the embedding.  All other fields are
modelled exactly. -/
structure RmsWindowResult where
  windowStart : ℕ
  windowEnd : ℕ
  sampleCount : ℕ
  outOfBoundsSecondsL1 : ℚ
  outOfBoundsSecondsL2 : ℚ
  outOfBoundsSecondsL3 : ℚ
  compliantL1 : Bool
  compliantL2 : Bool
  compliantL3 : Bool
deriving DecidableEq, Repr

/-- `getWindowStart` (voltageAnalysis.ts lines 128-135): zero the seconds and
milliseconds, floor the minutes to a multiple of `ESO.WINDOW_MINUTES`.
In UTC this is exactly flooring the epoch-milliseconds to a multiple of
10 minutes = 600 000 ms. -/
def getWindowStart (t : ℕ) : ℕ :=
  (t / (ESO.WINDOW_MINUTES * 60 * 1000)) * (ESO.WINDOW_MINUTES * 60 * 1000)

/-- `getWindowEnd` (voltageAnalysis.ts line 138):
`windowStart.getTime() + ESO.WINDOW_SECONDS * 1000`. -/
def getWindowEnd (windowStart : ℕ) : ℕ :=
  windowStart + ESO.WINDOW_SECONDS * 1000

/-- `aggregateWindow` (voltageAnalysis.ts lines 150-213).  The empty-readings
branch returns the degraded window (oob = 600 s, not compliant); otherwise
each reading found out of bounds contributes `pollIntervalSeconds` to the
phase's out-of-bounds counter, and a phase is compliant iff its counter is at
most `ESO.WINDOW_OOB_MAX_SECONDS`. -/
def aggregateWindow (readings : List VoltageReading) (windowStart : ℕ)
    (pollIntervalSeconds : ℚ) : RmsWindowResult :=
  let windowEnd := getWindowEnd windowStart
  if readings.isEmpty then
    { windowStart := windowStart
      windowEnd := windowEnd
      sampleCount := 0
      outOfBoundsSecondsL1 := (ESO.WINDOW_SECONDS : ℚ)
      outOfBoundsSecondsL2 := (ESO.WINDOW_SECONDS : ℚ)
      outOfBoundsSecondsL3 := (ESO.WINDOW_SECONDS : ℚ)
      compliantL1 := false
      compliantL2 := false
      compliantL3 := false }
  else
    let oobL1 := readings.foldl
      (fun acc r => if isVoltageInBounds r.voltage_l1 then acc else acc + pollIntervalSeconds) 0
    let oobL2 := readings.foldl
      (fun acc r => if isVoltageInBounds r.voltage_l2 then acc else acc + pollIntervalSeconds) 0
    let oobL3 := readings.foldl
      (fun acc r => if isVoltageInBounds r.voltage_l3 then acc else acc + pollIntervalSeconds) 0
    { windowStart := windowStart
      windowEnd := windowEnd
      sampleCount := readings.length
      outOfBoundsSecondsL1 := oobL1
      outOfBoundsSecondsL2 := oobL2
      outOfBoundsSecondsL3 := oobL3
      compliantL1 := decide (oobL1 ≤ ESO.WINDOW_OOB_MAX_SECONDS)
      compliantL2 := decide (oobL2 ≤ ESO.WINDOW_OOB_MAX_SECONDS)
      compliantL3 := decide (oobL3 ≤ ESO.WINDOW_OOB_MAX_SECONDS) }

/-- The mutable fields of `class WindowManager` (windowManager.ts lines 16-23). -/
structure WindowManagerState where
  currentWindowStart : Option ℕ
  buffer : List VoltageReading
  pollIntervalSeconds : ℚ
deriving DecidableEq, Repr

/-- `new WindowManager(pollIntervalSeconds)` (constructor default 10). -/
def mkWindowManager (pollIntervalSeconds : ℚ) : WindowManagerState :=
  { currentWindowStart := none, buffer := [], pollIntervalSeconds := pollIntervalSeconds }

/-- `WindowManager.addReading` (windowManager.ts lines 31-59): first-ever
reading opens a window; a reading whose slot differs from the open slot
finalises the old window and starts a new one holding only the new reading;
a reading in the open slot is appended. -/
def WindowManagerState.addReading (s : WindowManagerState) (reading : VoltageReading) :
    WindowManagerState × Option RmsWindowResult :=
  let windowStart := getWindowStart reading.timestamp
  match s.currentWindowStart with
  | none =>
      ({ s with currentWindowStart := some windowStart, buffer := [reading] }, none)
  | some cur =>
      if windowStart ≠ cur then
        ({ s with currentWindowStart := some windowStart, buffer := [reading] },
         some (aggregateWindow s.buffer cur s.pollIntervalSeconds))
      else
        ({ s with buffer := s.buffer ++ [reading] }, none)

/-- `WindowManager.flush` (windowManager.ts lines 62-76). -/
def WindowManagerState.flush (s : WindowManagerState) :
    WindowManagerState × Option RmsWindowResult :=
  match s.currentWindowStart with
  | none => (s, none)
  | some cur =>
      if s.buffer.isEmpty then (s, none)
      else
        ({ s with currentWindowStart := none, buffer := [] },
         some (aggregateWindow s.buffer cur s.pollIntervalSeconds))

/-- `interface DetectedAnomaly` (voltageAnalysis.ts lines 41-50). -/
structure DetectedAnomaly where
  startedAt : ℕ
  endedAt : Option ℕ
  phase : Phase
  type : AnomalyType
  severity : Severity
  voltageMin : Option ℚ
  voltageMax : Option ℚ
  durationSeconds : Option ℚ
deriving DecidableEq, Repr

/-- `classifyInterruption` (voltageAnalysis.ts lines 223-231). -/
def classifyInterruption (durationSeconds : ℚ) : AnomalyType × Severity :=
  if ESO.LONG_INTERRUPTION_SECONDS < durationSeconds then
    (AnomalyType.LONG_INTERRUPTION, Severity.CRITICAL)
  else
    (AnomalyType.SHORT_INTERRUPTION, Severity.WARNING)

/-- `createInterruptionAnomaly` (voltageAnalysis.ts lines 237-256).
Duration is `(endedAt - startedAt) / 1000` seconds (timestamps are ms). -/
def createInterruptionAnomaly (phase : Phase) (startedAt endedAt : ℕ)
    (recoveryVoltage : ℚ) : DetectedAnomaly :=
  let durationSeconds : ℚ := ((endedAt : ℚ) - (startedAt : ℚ)) / 1000
  let c := classifyInterruption durationSeconds
  { startedAt := startedAt
    endedAt := some endedAt
    phase := phase
    type := c.1
    severity := c.2
    voltageMin := some 0
    voltageMax := some recoveryVoltage
    durationSeconds := some durationSeconds }

/-- `createDeviationAnomaly` (voltageAnalysis.ts lines 261-276). -/
def createDeviationAnomaly (phase : Phase) (startedAt : ℕ) (voltage : ℚ) :
    DetectedAnomaly :=
  { startedAt := startedAt
    endedAt := none
    phase := phase
    type := AnomalyType.VOLTAGE_DEVIATION
    severity := Severity.WARNING
    voltageMin := some voltage
    voltageMax := some voltage
    durationSeconds := none }

/-- `interface WeeklyComplianceResult` (voltageAnalysis.ts lines 52-63). -/
structure WeeklyComplianceResult where
  weekStart : ℕ
  weekEnd : ℕ
  totalWindows : ℕ
  compliantWindowsL1 : ℕ
  compliantWindowsL2 : ℕ
  compliantWindowsL3 : ℕ
  compliancePctL1 : ℚ
  compliancePctL2 : ℚ
  compliancePctL3 : ℚ
  overallCompliant : Bool
deriving DecidableEq, Repr

/-- JS `+x.toFixed(2)` on the non-negative percentages produced here:
round to the nearest multiple of 1/100, ties towards the larger value. -/
def roundTo2 (q : ℚ) : ℚ :=
  ((⌊q * 100 + 1 / 2⌋ : ℤ) : ℚ) / 100

/-- `calculateWeeklyCompliance` (voltageAnalysis.ts lines 285-330).
Note that the stored `compliancePctLX` fields are rounded to two decimals
while `overallCompliant` compares the unrounded percentages with 95. -/
def calculateWeeklyCompliance (windows : List RmsWindowResult) (weekStart : ℕ) :
    WeeklyComplianceResult :=
  let weekEnd := weekStart + 7 * 24 * 3600 * 1000
  let total := windows.length
  if total = 0 then
    { weekStart := weekStart, weekEnd := weekEnd, totalWindows := 0
      compliantWindowsL1 := 0, compliantWindowsL2 := 0, compliantWindowsL3 := 0
      compliancePctL1 := 0, compliancePctL2 := 0, compliancePctL3 := 0
      overallCompliant := false }
  else
    let compliantL1 := (windows.filter (fun w => w.compliantL1)).length
    let compliantL2 := (windows.filter (fun w => w.compliantL2)).length
    let compliantL3 := (windows.filter (fun w => w.compliantL3)).length
    let pctL1 : ℚ := ((compliantL1 : ℚ) / (total : ℚ)) * 100
    let pctL2 : ℚ := ((compliantL2 : ℚ) / (total : ℚ)) * 100
    let pctL3 : ℚ := ((compliantL3 : ℚ) / (total : ℚ)) * 100
    { weekStart := weekStart, weekEnd := weekEnd, totalWindows := total
      compliantWindowsL1 := compliantL1
      compliantWindowsL2 := compliantL2
      compliantWindowsL3 := compliantL3
      compliancePctL1 := roundTo2 pctL1
      compliancePctL2 := roundTo2 pctL2
      compliancePctL3 := roundTo2 pctL3
      overallCompliant :=
        decide (ESO.WEEKLY_COMPLIANCE_PCT ≤ pctL1) &&
        decide (ESO.WEEKLY_COMPLIANCE_PCT ≤ pctL2) &&
        decide (ESO.WEEKLY_COMPLIANCE_PCT ≤ pctL3) }

/-- `interface InterruptionState` (anomalyTracker.ts lines 14-17). -/
structure InterruptionState where
  ongoing : Bool
  startedAt : Option ℕ
deriving DecidableEq, Repr

/-- `interface DeviationState` (anomalyTracker.ts lines 19-24).
The `voltageMin = Infinity` / `voltageMax = -Infinity` sentinels used before
a deviation opens are modelled as `none`. -/
structure DeviationState where
  ongoing : Bool
  startedAt : Option ℕ
  voltageMin : Option ℚ
  voltageMax : Option ℚ
deriving DecidableEq, Repr

/-- `interface PhaseState` (anomalyTracker.ts lines 26-29). -/
structure PhaseState where
  interruption : InterruptionState
  deviation : DeviationState
deriving DecidableEq, Repr

/-- The per-phase state installed by the `AnomalyTracker` constructor and by
`reset` (anomalyTracker.ts lines 46-54): both machines idle, min/max at
their `±Infinity` sentinels. -/
def initPhaseState : PhaseState :=
  { interruption := { ongoing := false, startedAt := none }
    deviation := { ongoing := false, startedAt := none, voltageMin := none, voltageMax := none } }

/-- `Math.min(stored, v)` where `stored` may be the `Infinity` sentinel. -/
def minWithInf : Option ℚ → ℚ → ℚ
  | none, v => v
  | some a, v => min a v

/-- `Math.max(stored, v)` where `stored` may be the `-Infinity` sentinel. -/
def maxWithNegInf : Option ℚ → ℚ → ℚ
  | none, v => v
  | some a, v => max a v

/-- The body of the `for (const phase of PHASES)` loop of
`AnomalyTracker.processReading` (anomalyTracker.ts lines 64-136), for one
phase: interruption entry/recovery first, then deviation open/track/close on
the non-zero branch.  Returns the updated phase state together with the
anomalies pushed for this phase (in push order). -/
def processPhase (ps : PhaseState) (now : ℕ) (voltage : ℚ) (phase : Phase) :
    PhaseState × List DetectedAnomaly :=
  if isVoltageZero voltage then
    -- Voltage is gone: open an interruption if none is ongoing, and close any
    -- open deviation silently (lines 69-80).
    let i := if ps.interruption.ongoing then ps.interruption
             else { ongoing := true, startedAt := some now }
    let d := if ps.deviation.ongoing && ps.deviation.startedAt.isSome then
               { ps.deviation with ongoing := false, startedAt := none }
             else ps.deviation
    ({ interruption := i, deviation := d }, [])
  else
    -- Voltage is present: close an ongoing interruption (lines 83-95) ...
    let step1 : InterruptionState × List DetectedAnomaly :=
      match ps.interruption.ongoing, ps.interruption.startedAt with
      | true, some t0 =>
          ({ ongoing := false, startedAt := none },
           [createInterruptionAnomaly phase t0 now voltage])
      | _, _ => (ps.interruption, [])
    -- ... then run the deviation logic (lines 98-135).
    if !(isVoltageInBounds voltage) then
      if !ps.deviation.ongoing then
        ({ interruption := step1.1
           deviation := { ongoing := true, startedAt := some now
                          voltageMin := some voltage, voltageMax := some voltage } },
         step1.2 ++ [createDeviationAnomaly phase now voltage])
      else
        ({ interruption := step1.1
           deviation := { ps.deviation with
                          voltageMin := some (minWithInf ps.deviation.voltageMin voltage)
                          voltageMax := some (maxWithNegInf ps.deviation.voltageMax voltage) } },
         step1.2)
    else
      match ps.deviation.ongoing, ps.deviation.startedAt with
      | true, some t0 =>
          let durationSeconds : ℚ := ((now : ℚ) - (t0 : ℚ)) / 1000
          ({ interruption := step1.1
             deviation := { ongoing := false, startedAt := none
                            voltageMin := none, voltageMax := none } },
           step1.2 ++
             [{ startedAt := t0
                endedAt := some now
                phase := phase
                type := AnomalyType.VOLTAGE_DEVIATION
                severity := Severity.WARNING
                voltageMin := ps.deviation.voltageMin
                voltageMax := ps.deviation.voltageMax
                durationSeconds := some durationSeconds }])
      | _, _ => ({ interruption := step1.1, deviation := ps.deviation }, step1.2)

/-- `private state: Record<Phase, PhaseState>` of `class AnomalyTracker`. -/
structure TrackerState where
  l1 : PhaseState
  l2 : PhaseState
  l3 : PhaseState
deriving DecidableEq, Repr

/-- Read the per-phase slot of the tracker state record. -/
def TrackerState.get (s : TrackerState) (phase : Phase) : PhaseState :=
  match phase with
  | Phase.L1 => s.l1
  | Phase.L2 => s.l2
  | Phase.L3 => s.l3

/-- Replace the per-phase slot of the tracker state record. -/
def TrackerState.set (s : TrackerState) (phase : Phase) (ps : PhaseState) : TrackerState :=
  match phase with
  | Phase.L1 => { s with l1 := ps }
  | Phase.L2 => { s with l2 := ps }
  | Phase.L3 => { s with l3 := ps }

/-- Tracker state after `new AnomalyTracker()` / `reset()`. -/
def initTracker : TrackerState :=
  { l1 := initPhaseState, l2 := initPhaseState, l3 := initPhaseState }

/-- `AnomalyTracker.processReading` (anomalyTracker.ts lines 60-140): run the
loop body over `PHASES` in order, accumulating the pushed anomalies. -/
def processReading (st : TrackerState) (reading : VoltageReading) :
    TrackerState × List DetectedAnomaly :=
  PHASES.foldl
    (fun acc phase =>
      let res := processPhase (acc.1.get phase) reading.timestamp
        (getVoltageForPhase reading phase) phase
      (acc.1.set phase res.1, acc.2 ++ res.2))
    (st, [])

/- The in-memory store, `class VoltageState` from `src/unnamed/part_002`
(lines 167-306). -/

def MAX_READINGS : ℕ := 86400

def MAX_WINDOWS : ℕ := 2016

def MAX_ANOMALIES : ℕ := 1000

/-- The fields of `class VoltageState` (part_002 lines 171-178). -/
structure VoltageState where
  tracker : TrackerState
  windowManager : WindowManagerState
  readings : List VoltageReading
  windows : List RmsWindowResult
  anomalies : List DetectedAnomaly
  latest : Option VoltageReading
deriving Repr

/-- The store at construction time: empty buffers, fresh tracker, and a
`WindowManager` built with poll interval 10 (part_002 lines 172-178). -/
def initVoltageState : VoltageState :=
  { tracker := initTracker
    windowManager := mkWindowManager 10
    readings := []
    windows := []
    anomalies := []
    latest := none }

/-- The ring-buffer trim `if (xs.length > cap) xs = xs.slice(-cap)`:
keep the last `cap` entries when over the cap. -/
def trimTo (cap : ℕ) (xs : List α) : List α :=
  if cap < xs.length then xs.drop (xs.length - cap) else xs

/-- `VoltageState.pushReading` (part_002 lines 190-221): overwrite `latest`,
append the reading and trim; run the tracker, append its anomalies and trim;
run the window manager and, if a window completed, append it and trim.
Returns the new store state plus the `{ anomalies, completedWindow }`
result. -/
def VoltageState.pushReading (s : VoltageState) (reading : VoltageReading) :
    VoltageState × List DetectedAnomaly × Option RmsWindowResult :=
  let readings2 := trimTo MAX_READINGS (s.readings ++ [reading])
  let tr := processReading s.tracker reading
  let anomalies2 := trimTo MAX_ANOMALIES (s.anomalies ++ tr.2)
  let wm := s.windowManager.addReading reading
  let windows2 :=
    match wm.2 with
    | some w => trimTo MAX_WINDOWS (s.windows ++ [w])
    | none => s.windows
  ({ tracker := tr.1
     windowManager := wm.1
     readings := readings2
     windows := windows2
     anomalies := anomalies2
     latest := some reading }, tr.2, wm.2)

/-- `VoltageState.getReadings` (part_002 lines 228-233): inclusive timestamp
filters, each applied only when the bound is supplied. -/
def VoltageState.getReadings (s : VoltageState) (fromTs toTs : Option ℕ) :
    List VoltageReading :=
  let r1 := match fromTs with
    | some f => s.readings.filter (fun r => decide (f ≤ r.timestamp))
    | none => s.readings
  match toTs with
  | some t => r1.filter (fun r => decide (r.timestamp ≤ t))
  | none => r1

/-- Placeholder used for `filtered[j]` lookups; every lookup performed by
`downsample` is proved in range, so this value is never produced. -/
def dfltReading : VoltageReading := { timestamp := 0, voltage_l1 := 0, voltage_l2 := 0, voltage_l3 := 0 }

/-- The indices selected by the downsampling loop of
`VoltageState.getReadingsDownsampled` (part_002 lines 241-245):
`Math.floor(i * step)` with `step = n / maxPoints`, for `i` in
`[0, maxPoints)` (an empty range when `maxPoints ≤ 0`, exactly as the JS
`for` loop). -/
def dsIdxs (maxPoints : ℤ) (n : ℕ) : List ℕ :=
  (List.range maxPoints.toNat).map
    (fun (i : ℕ) => (⌊(i : ℚ) * ((n : ℚ) / (maxPoints : ℚ))⌋).toNat)

/-- The over-budget branch of `VoltageState.getReadingsDownsampled`
(part_002 lines 240-250): pick `filtered[floor(i * step)]` with
`step = n / maxPoints` for `i` in `[0, maxPoints)`, then append the last
filtered reading unless the loop already selected it.  The source compares
`result[result.length-1] !== filtered[n-1]` by object identity; distinct
buffer entries are distinct objects, so identity of the selected element
and the last element is exactly equality of the selecting index with
`n - 1` (the selected indices are monotone, so only the last one can reach
`n - 1`); an empty `result` compared against an absent last element
(`undefined !== undefined`, only possible when `filtered` is empty) appends
nothing. -/
def downsample (maxPoints : ℤ) (filtered : List VoltageReading) : List VoltageReading :=
  let idxs := dsIdxs maxPoints filtered.length
  let result := idxs.map (fun j => filtered.getD j dfltReading)
  if filtered.isEmpty then result
  else if idxs.getLast? = some (filtered.length - 1) then result
  else result ++ filtered.getLast?.toList

/-- `VoltageState.getReadingsDownsampled` (part_002 lines 236-251). -/
def VoltageState.getReadingsDownsampled (s : VoltageState) (fromTs toTs : ℕ)
    (maxPoints : ℤ) : List VoltageReading :=
  let filtered := s.getReadings (some fromTs) (some toTs)
  if (filtered.length : ℤ) ≤ maxPoints then filtered
  else downsample maxPoints filtered

/- Driver helpers used by the theorems: folds that feed a whole list of
readings through the stateful components, collecting every emitted value. -/

/-- Feed a list of readings through `WindowManager.addReading`, collecting
the completed windows in emission order. -/
def WindowManagerState.addAll (s : WindowManagerState) (rs : List VoltageReading) :
    WindowManagerState × List RmsWindowResult :=
  rs.foldl
    (fun acc r =>
      let res := acc.1.addReading r
      (res.1, acc.2 ++ res.2.toList))
    (s, [])

/-- Feed a list of `(timestamp, voltage)` samples through the single-phase
loop body `processPhase`, collecting the anomalies in emission order. -/
def runPhase (ps : PhaseState) (phase : Phase) (inputs : List (ℕ × ℚ)) :
    PhaseState × List DetectedAnomaly :=
  inputs.foldl
    (fun acc tv =>
      let res := processPhase acc.1 tv.1 tv.2 phase
      (res.1, acc.2 ++ res.2))
    (ps, [])

/-- Feed a list of readings through `AnomalyTracker.processReading`,
collecting the anomalies in emission order. -/
def processAll (st : TrackerState) (rs : List VoltageReading) :
    TrackerState × List DetectedAnomaly :=
  rs.foldl
    (fun acc r =>
      let res := processReading acc.1 r
      (res.1, acc.2 ++ res.2))
    (st, [])

/-- Feed a list of readings through `VoltageState.pushReading`. -/
def VoltageState.pushMany (s : VoltageState) (rs : List VoltageReading) : VoltageState :=
  rs.foldl (fun acc r => (acc.pushReading r).1) s

/-- An anomaly of one of the two interruption kinds. -/
def isInterruptionKind (a : DetectedAnomaly) : Bool :=
  match a.type with
  | AnomalyType.VOLTAGE_DEVIATION => false
  | _ => true

/-- An opening deviation anomaly: deviation kind, no end timestamp. -/
def isDeviationOpen (a : DetectedAnomaly) : Bool :=
  decide (a.type = AnomalyType.VOLTAGE_DEVIATION) && a.endedAt.isNone

/-- The window manager's health invariant: either no window is open and the
buffer is empty, or a window is open, the buffer is non-empty, and every
buffered reading falls in the open slot. -/
def WMValid (s : WindowManagerState) : Prop :=
  match s.currentWindowStart with
  | none => s.buffer = []
  | some c => s.buffer ≠ [] ∧ ∀ x ∈ s.buffer, getWindowStart x.timestamp = c

/- General lemmas about the embedding. -/

lemma foldl_count_if {α : Type} (p : α → Bool) (poll : ℚ) (l : List α) (a : ℚ) :
    l.foldl (fun acc r => if p r then acc else acc + poll) a
      = a + (l.countP (fun r => !p r) : ℚ) * poll := by
  induction l generalizing a with
  | nil => simp
  | cons x t ih =>
    by_cases h : p x
    · simp [h, ih, List.countP_cons]
    · simp only [List.foldl_cons, h, if_false, ih, List.countP_cons]
      simp only [h, Bool.not_false, if_true]
      push_cast
      ring

/-- The non-empty branch of `aggregateWindow`, with the out-of-bounds fold
rewritten as a count. -/
lemma aggregateWindow_ne (readings : List VoltageReading) (ws : ℕ) (p : ℚ)
    (h : readings.isEmpty = false) :
    aggregateWindow readings ws p =
      { windowStart := ws
        windowEnd := getWindowEnd ws
        sampleCount := readings.length
        outOfBoundsSecondsL1 :=
          (readings.countP (fun x => !isVoltageInBounds x.voltage_l1) : ℚ) * p
        outOfBoundsSecondsL2 :=
          (readings.countP (fun x => !isVoltageInBounds x.voltage_l2) : ℚ) * p
        outOfBoundsSecondsL3 :=
          (readings.countP (fun x => !isVoltageInBounds x.voltage_l3) : ℚ) * p
        compliantL1 := decide ((readings.countP (fun x => !isVoltageInBounds x.voltage_l1) : ℚ) * p
          ≤ ESO.WINDOW_OOB_MAX_SECONDS)
        compliantL2 := decide ((readings.countP (fun x => !isVoltageInBounds x.voltage_l2) : ℚ) * p
          ≤ ESO.WINDOW_OOB_MAX_SECONDS)
        compliantL3 := decide ((readings.countP (fun x => !isVoltageInBounds x.voltage_l3) : ℚ) * p
          ≤ ESO.WINDOW_OOB_MAX_SECONDS) } := by
  simp only [aggregateWindow, h, Bool.false_eq_true, if_false]
  simp only [foldl_count_if, zero_add]

lemma countP_replicate {α : Type} (p : α → Bool) (n : ℕ) (a : α) :
    (List.replicate n a).countP p = if p a then n else 0 := by
  induction n with
  | zero => simp
  | succ k ih =>
    simp only [List.replicate_succ, List.countP_cons, ih]
    by_cases h : p a <;> simp [h]

lemma filter_replicate {α : Type} (p : α → Bool) (n : ℕ) (a : α) :
    (List.replicate n a).filter p = if p a then List.replicate n a else [] := by
  induction n with
  | zero => simp
  | succ k ih =>
    simp only [List.replicate_succ, List.filter_cons, ih]
    by_cases h : p a <;> simp [h, List.replicate_succ]

lemma trimTo_length_le {α : Type} (cap : ℕ) (xs : List α) :
    (trimTo cap xs).length ≤ cap := by
  unfold trimTo
  split
  · simp only [List.length_drop]
    omega
  · omega

lemma trimTo_suffix {α : Type} (cap : ℕ) (xs : List α) : trimTo cap xs <:+ xs := by
  unfold trimTo
  split
  · exact List.drop_suffix _ _
  · exact List.suffix_refl _

lemma suffix_getLast? {α : Type} {l1 l2 : List α} (h : l1 <:+ l2) (hne : l1 ≠ []) :
    l2.getLast? = l1.getLast? := by
  obtain ⟨t, rfl⟩ := h
  exact List.getLast?_append_of_ne_nil _ hne

lemma trimTo_getLast? {α : Type} (cap : ℕ) (xs : List α) (hc : 1 ≤ cap) (hx : xs ≠ []) :
    (trimTo cap xs).getLast? = xs.getLast? := by
  have hlen : 1 ≤ (trimTo cap xs).length := by
    unfold trimTo
    split
    · simp only [List.length_drop]
      omega
    · have : 0 < xs.length := List.length_pos.mpr hx
      omega
  have hne : trimTo cap xs ≠ [] := by
    intro h
    rw [h] at hlen
    simp at hlen
  exact (suffix_getLast? (trimTo_suffix cap xs) hne).symm

lemma inBounds_not_zero {v : ℚ} (h : isVoltageInBounds v = true) :
    isVoltageZero v = false := by
  simp only [isVoltageInBounds, Bool.and_eq_true, decide_eq_true_eq] at h
  simp only [isVoltageZero, decide_eq_false_iff_not, not_lt]
  calc ESO.VOLTAGE_ZERO_THRESHOLD ≤ ESO.VOLTAGE_MIN_1PH := by norm_num [ESO.VOLTAGE_ZERO_THRESHOLD, ESO.VOLTAGE_MIN_1PH]
    _ ≤ v := h.1

/- Branch characterisations of the window manager. -/

lemma addReading_none (s : WindowManagerState) (r : VoltageReading)
    (h : s.currentWindowStart = none) :
    s.addReading r =
      ({ s with currentWindowStart := some (getWindowStart r.timestamp), buffer := [r] },
       none) := by
  obtain ⟨cws, buf, poll⟩ := s
  simp only at h
  subst h
  simp [WindowManagerState.addReading]

lemma addReading_same (s : WindowManagerState) (r : VoltageReading) (cur : ℕ)
    (h : s.currentWindowStart = some cur) (heq : getWindowStart r.timestamp = cur) :
    s.addReading r = ({ s with buffer := s.buffer ++ [r] }, none) := by
  obtain ⟨cws, buf, poll⟩ := s
  simp only at h
  subst h
  simp [WindowManagerState.addReading, heq]

lemma addReading_diff (s : WindowManagerState) (r : VoltageReading) (cur : ℕ)
    (h : s.currentWindowStart = some cur) (hne : getWindowStart r.timestamp ≠ cur) :
    s.addReading r =
      ({ s with currentWindowStart := some (getWindowStart r.timestamp), buffer := [r] },
       some (aggregateWindow s.buffer cur s.pollIntervalSeconds)) := by
  obtain ⟨cws, buf, poll⟩ := s
  simp only at h
  subst h
  simp [WindowManagerState.addReading, hne]

lemma flush_idle (s : WindowManagerState)
    (h : s.currentWindowStart = none ∨ s.buffer = []) :
    s.flush = (s, none) := by
  obtain ⟨cws, buf, poll⟩ := s
  cases cws with
  | none => simp [WindowManagerState.flush]
  | some cur =>
    rcases h with h | h
    · exact absurd h (by simp)
    · simp only at h
      subst h
      simp [WindowManagerState.flush]

lemma flush_close (s : WindowManagerState) (cur : ℕ)
    (h : s.currentWindowStart = some cur) (hb : s.buffer ≠ []) :
    s.flush = ({ s with currentWindowStart := none, buffer := [] },
               some (aggregateWindow s.buffer cur s.pollIntervalSeconds)) := by
  obtain ⟨cws, buf, poll⟩ := s
  simp only at h hb
  subst h
  simp [WindowManagerState.flush, List.isEmpty_iff, hb]

lemma addAll_acc (rs : List VoltageReading) :
    ∀ (s : WindowManagerState) (ws : List RmsWindowResult),
    rs.foldl (fun acc r =>
        let res := acc.1.addReading r
        (res.1, acc.2 ++ res.2.toList)) (s, ws)
      = ((s.addAll rs).1, ws ++ (s.addAll rs).2) := by
  induction rs with
  | nil =>
    intro s ws
    simp [WindowManagerState.addAll]
  | cons r t ih =>
    intro s ws
    simp only [List.foldl_cons]
    rw [ih]
    conv_rhs => rw [WindowManagerState.addAll]
    simp only [List.foldl_cons]
    rw [ih]
    simp [List.append_assoc]

lemma addAll_cons (s : WindowManagerState) (r : VoltageReading) (t : List VoltageReading) :
    s.addAll (r :: t) =
      (((s.addReading r).1.addAll t).1,
       (s.addReading r).2.toList ++ ((s.addReading r).1.addAll t).2) := by
  unfold WindowManagerState.addAll
  simp only [List.foldl_cons]
  rw [addAll_acc]
  simp [WindowManagerState.addAll]

lemma addAll_append (s : WindowManagerState) (l1 l2 : List VoltageReading) :
    s.addAll (l1 ++ l2) =
      (((s.addAll l1).1.addAll l2).1,
       (s.addAll l1).2 ++ ((s.addAll l1).1.addAll l2).2) := by
  unfold WindowManagerState.addAll
  rw [List.foldl_append]
  rw [show (l1.foldl (fun acc r =>
      let res := acc.1.addReading r
      (res.1, acc.2 ++ res.2.toList)) (s, ([] : List RmsWindowResult)))
    = ((s.addAll l1).1, [] ++ (s.addAll l1).2) from addAll_acc l1 s []]
  rw [addAll_acc]
  simp [WindowManagerState.addAll]

lemma addAll_same_slot (rs : List VoltageReading) :
    ∀ (c : ℕ) (buf : List VoltageReading) (p : ℚ),
    (∀ x ∈ rs, getWindowStart x.timestamp = c) →
    WindowManagerState.addAll
        { currentWindowStart := some c, buffer := buf, pollIntervalSeconds := p } rs
      = ({ currentWindowStart := some c, buffer := buf ++ rs, pollIntervalSeconds := p }, []) := by
  induction rs with
  | nil =>
    intro c buf p _
    simp [WindowManagerState.addAll]
  | cons r t ih =>
    intro c buf p h
    rw [addAll_cons]
    rw [addReading_same _ r c rfl (h r (by simp))]
    simp only [Option.toList_none, List.nil_append]
    rw [ih c (buf ++ [r]) p (fun x hx => h x (by simp [hx]))]
    simp [List.append_assoc]

/- Claim theorems. -/

/-- C6 (confirmed): `WindowManager.addReading` returns a completed window
exactly when the new reading's 10-minute slot differs from the currently
open slot, finalising the buffered readings and retaining only the new
reading in the new window; the first-ever reading, and a reading in the
open slot, return nothing; `flush` returns the aggregate of the buffer iff
a window is open and non-empty, clearing the state, and otherwise returns
nothing and leaves the state alone. -/
theorem C6_addReading_flush_contract :
    ∀ (s : WindowManagerState) (r : VoltageReading),
      (s.currentWindowStart = none →
        s.addReading r =
          ({ s with currentWindowStart := some (getWindowStart r.timestamp), buffer := [r] },
           none)) ∧
      (∀ cur, s.currentWindowStart = some cur → getWindowStart r.timestamp = cur →
        s.addReading r = ({ s with buffer := s.buffer ++ [r] }, none)) ∧
      (∀ cur, s.currentWindowStart = some cur → getWindowStart r.timestamp ≠ cur →
        s.addReading r =
          ({ s with currentWindowStart := some (getWindowStart r.timestamp), buffer := [r] },
           some (aggregateWindow s.buffer cur s.pollIntervalSeconds))) ∧
      ((s.addReading r).2.isSome = true ↔
        ∃ cur, s.currentWindowStart = some cur ∧ getWindowStart r.timestamp ≠ cur) ∧
      (s.currentWindowStart = none ∨ s.buffer = [] → s.flush = (s, none)) ∧
      (∀ cur, s.currentWindowStart = some cur → s.buffer ≠ [] →
        s.flush = ({ s with currentWindowStart := none, buffer := [] },
                   some (aggregateWindow s.buffer cur s.pollIntervalSeconds))) ∧
      ((s.flush).2.isSome = true ↔ s.currentWindowStart ≠ none ∧ s.buffer ≠ []) := by
  intro s r
  refine ⟨addReading_none s r, fun cur h heq => addReading_same s r cur h heq,
    fun cur h hne => addReading_diff s r cur h hne, ?_,
    flush_idle s, fun cur h hb => flush_close s cur h hb, ?_⟩
  · cases hc : s.currentWindowStart with
    | none =>
      rw [addReading_none s r hc]
      simp
    | some cur =>
      by_cases heq : getWindowStart r.timestamp = cur
      · rw [addReading_same s r cur hc heq]
        simp only [Option.isSome_none, Bool.false_eq_true, false_iff]
        rintro ⟨c, hc2, hne⟩
        injection hc2 with h3
        subst h3
        exact hne heq
      · rw [addReading_diff s r cur hc heq]
        simp only [Option.isSome_some, true_iff]
        exact ⟨cur, rfl, heq⟩
  · cases hc : s.currentWindowStart with
    | none =>
      rw [flush_idle s (Or.inl hc)]
      simp
    | some cur =>
      by_cases hb : s.buffer = []
      · rw [flush_idle s (Or.inr hb)]
        simp [hb]
      · rw [flush_close s cur hc hb]
        simp [hc, hb]

/-- C6 witness: the contract evaluated on a concrete state and reading whose
slot differs from the open slot. -/
theorem C6_addReading_flush_contract_witness :
    (WindowManagerState.addReading
        { currentWindowStart := some 0
          buffer := [{ timestamp := 0, voltage_l1 := 230, voltage_l2 := 230, voltage_l3 := 230 }]
          pollIntervalSeconds := 10 }
        { timestamp := 600000, voltage_l1 := 230, voltage_l2 := 230, voltage_l3 := 230 }) =
      ({ currentWindowStart := some 600000
         buffer := [{ timestamp := 600000, voltage_l1 := 230, voltage_l2 := 230, voltage_l3 := 230 }]
         pollIntervalSeconds := 10 },
       some (aggregateWindow
         [{ timestamp := 0, voltage_l1 := 230, voltage_l2 := 230, voltage_l3 := 230 }] 0 10)) := by
  have h := (C6_addReading_flush_contract
    { currentWindowStart := some 0
      buffer := [{ timestamp := 0, voltage_l1 := 230, voltage_l2 := 230, voltage_l3 := 230 }]
      pollIntervalSeconds := 10 }
    { timestamp := 600000, voltage_l1 := 230, voltage_l2 := 230, voltage_l3 := 230 }).2.2.1
  have h2 := h 0 rfl (by decide)
  simpa [getWindowStart, ESO.WINDOW_MINUTES] using h2

/-- A concrete manager state with an open window at slot 600000 holding one
buffered reading. -/
def wmLate : WindowManagerState :=
  { currentWindowStart := some 600000
    buffer := [{ timestamp := 600000, voltage_l1 := 230, voltage_l2 := 230, voltage_l3 := 230 }]
    pollIntervalSeconds := 10 }

/-- A reading whose 10-minute slot (0) is strictly before `wmLate`'s open
slot (600000). -/
def rEarly : VoltageReading :=
  { timestamp := 0, voltage_l1 := 230, voltage_l2 := 230, voltage_l3 := 230 }

/-- C5 counterexample: a reading whose slot is strictly before the open slot
is neither dropped nor treated as belonging to the open slot.  Had it been
dropped, the state would be unchanged and nothing returned; had it been
treated as in the open slot, the open slot would remain 600000 and nothing
returned.  Instead `addReading` finalises the open window (it returns a
completed window) and re-opens a window at the reading's own earlier slot 0. -/
theorem C5_cex_third_behaviour :
    getWindowStart rEarly.timestamp = 0 ∧ wmLate.currentWindowStart = some 600000 ∧
    (wmLate.addReading rEarly).1.currentWindowStart = some 0 ∧
    (wmLate.addReading rEarly).1.buffer = [rEarly] ∧
    (wmLate.addReading rEarly).2.isSome = true := by
  refine ⟨by decide, by decide, by decide, by decide, by decide⟩

/-- C5 (corrected): the code takes a third way with an out-of-contract
reading — it finalises the open window (returning its aggregate) and opens a
new window at the reading's own (earlier) slot, containing only that
reading.  State is still not corrupted: the manager's validity invariant (a
window is open iff the buffer is non-empty, and every buffered reading lies
in the open slot) is preserved by `addReading` for arbitrary readings,
in-contract or not. -/
theorem C5_amended_early_reading :
    (∀ (s : WindowManagerState) (r : VoltageReading) (cur : ℕ),
      s.currentWindowStart = some cur → getWindowStart r.timestamp < cur →
      s.addReading r =
        ({ s with currentWindowStart := some (getWindowStart r.timestamp), buffer := [r] },
         some (aggregateWindow s.buffer cur s.pollIntervalSeconds))) ∧
    (∀ (s : WindowManagerState) (r : VoltageReading), WMValid s → WMValid (s.addReading r).1) := by
  constructor
  · intro s r cur hcur hlt
    exact addReading_diff s r cur hcur (by omega)
  · intro s r hvalid
    cases hc : s.currentWindowStart with
    | none =>
      rw [addReading_none s r hc]
      simp only [WMValid]
      refine ⟨by simp, ?_⟩
      intro x hx
      simp only [List.mem_singleton] at hx
      subst hx
      rfl
    | some cur =>
      by_cases heq : getWindowStart r.timestamp = cur
      · rw [addReading_same s r cur hc heq]
        simp only [WMValid] at hvalid ⊢
        rw [hc] at hvalid
        simp only [hc]
        refine ⟨by simp, ?_⟩
        intro x hx
        rcases List.mem_append.mp hx with hx | hx
        · exact hvalid.2 x hx
        · simp only [List.mem_singleton] at hx
          subst hx
          exact heq
      · rw [addReading_diff s r cur hc heq]
        simp only [WMValid]
        refine ⟨by simp, ?_⟩
        intro x hx
        simp only [List.mem_singleton] at hx
        subst hx
        rfl

/-- C5 witness: the amended behaviour evaluated on the concrete out-of-order
input, together with the validity invariant on the resulting state. -/
theorem C5_amended_early_reading_witness :
    (wmLate.addReading rEarly =
      ({ wmLate with currentWindowStart := some 0, buffer := [rEarly] },
       some (aggregateWindow wmLate.buffer 600000 10))) ∧
    WMValid (wmLate.addReading rEarly).1 := by
  constructor
  · have h := C5_amended_early_reading.1 wmLate rEarly 600000 rfl
      (by simp [rEarly, getWindowStart, ESO.WINDOW_MINUTES])
    simpa [rEarly, getWindowStart, ESO.WINDOW_MINUTES] using h
  · refine C5_amended_early_reading.2 wmLate rEarly ?_
    simp only [WMValid, wmLate]
    refine ⟨by simp, ?_⟩
    intro x hx
    simp only [List.mem_singleton] at hx
    subst hx
    decide

/-- The 61 identical out-of-bounds readings used by the C1 counterexample. -/
def c1OobReading : VoltageReading :=
  { timestamp := 0, voltage_l1 := 250, voltage_l2 := 230, voltage_l3 := 230 }

/-- The readings of the C1 counterexample: 61 readings in slot 0 whose L1
voltage (250 V) is out of bounds, then one in-bounds reading in the next
slot that closes the window.  Timestamps are non-decreasing, so the stream
is in-contract for the aggregator. -/
def c1CexReadings : List VoltageReading :=
  List.replicate 61 c1OobReading ++
    [{ timestamp := 600000, voltage_l1 := 230, voltage_l2 := 230, voltage_l3 := 230 }]

/-- C1 counterexample: nothing bounds the number of readings buffered into a
single 10-minute slot, so with the default poll interval 10 a window
produced by `addReading` can report more than 600 out-of-bounds seconds:
driving 61 out-of-bounds readings and a closing reading through a fresh
manager yields a single completed window with `oob_seconds_l1 = 610 > 600`. -/
theorem C1_cex_oob_exceeds_600 :
    (((mkWindowManager 10).addAll c1CexReadings).2.map
        (fun w => w.outOfBoundsSecondsL1)) = [610] ∧ ¬((610 : ℚ) ≤ 600) := by
  constructor
  · have hslot : ∀ x ∈ List.replicate 60 c1OobReading, getWindowStart x.timestamp = 0 := by
      intro x hx
      rw [List.eq_of_mem_replicate hx]
      decide
    have h1 : c1CexReadings = c1OobReading ::
        (List.replicate 60 c1OobReading ++
          [{ timestamp := 600000, voltage_l1 := 230, voltage_l2 := 230, voltage_l3 := 230 }]) := by
      rw [c1CexReadings, show (61 : ℕ) = 60 + 1 from rfl, List.replicate_succ]
      simp
    rw [h1, addAll_cons,
      addReading_none (mkWindowManager 10) c1OobReading rfl]
    simp only [Option.toList_none, List.nil_append]
    have hstart : getWindowStart c1OobReading.timestamp = 0 := by decide
    rw [hstart]
    rw [show ({ mkWindowManager 10 with
          currentWindowStart := some 0, buffer := [c1OobReading] } : WindowManagerState)
        = { currentWindowStart := some 0, buffer := [c1OobReading],
            pollIntervalSeconds := 10 } from rfl]
    rw [addAll_append, addAll_same_slot (List.replicate 60 c1OobReading) 0 [c1OobReading] 10 hslot]
    simp only [List.nil_append]
    rw [addAll_cons]
    rw [addReading_diff _ _ 0 rfl (by decide)]
    simp only [WindowManagerState.addAll, List.foldl_nil, Option.toList_some, List.append_nil,
      List.map_cons, List.map_nil, List.nil_append]
    have hcount : (c1OobReading :: List.replicate 60 c1OobReading).countP
        (fun x => !isVoltageInBounds x.voltage_l1) = 61 := by
      rw [List.countP_cons, countP_replicate]
      decide
    have hne : (c1OobReading :: List.replicate 60 c1OobReading).isEmpty = false := rfl
    rw [List.cons_append, List.nil_append]
    rw [aggregateWindow_ne _ _ _ hne]
    simp only [List.map_cons, List.map_nil]
    rw [hcount]
    norm_num
  · norm_num

/-- C1 (corrected): every window produced by `addReading` or `flush` from a
state with a non-empty buffer (the only states the manager reaches) and the
default poll interval 10 satisfies: the window spans exactly 600 s; per
phase, compliance holds iff the out-of-bounds seconds are at most 30; the
out-of-bounds seconds equal (count of buffered out-of-bounds readings) × 10
and are non-negative; and they are at most 600 *provided* at most 60
readings were buffered (the assumed 10 s cadence) — with more buffered
readings they can exceed 600, as the counterexample shows. -/
theorem C1_amended_window_invariants :
    ∀ (s : WindowManagerState) (r : VoltageReading) (w : RmsWindowResult),
      s.pollIntervalSeconds = 10 → s.buffer ≠ [] →
      ((s.addReading r).2 = some w ∨ (s.flush).2 = some w) →
      w.windowEnd = w.windowStart + 600 * 1000 ∧
      (w.compliantL1 = true ↔ w.outOfBoundsSecondsL1 ≤ 30) ∧
      (w.compliantL2 = true ↔ w.outOfBoundsSecondsL2 ≤ 30) ∧
      (w.compliantL3 = true ↔ w.outOfBoundsSecondsL3 ≤ 30) ∧
      w.outOfBoundsSecondsL1 =
        (s.buffer.countP (fun x => !isVoltageInBounds x.voltage_l1) : ℚ) * 10 ∧
      w.outOfBoundsSecondsL2 =
        (s.buffer.countP (fun x => !isVoltageInBounds x.voltage_l2) : ℚ) * 10 ∧
      w.outOfBoundsSecondsL3 =
        (s.buffer.countP (fun x => !isVoltageInBounds x.voltage_l3) : ℚ) * 10 ∧
      0 ≤ w.outOfBoundsSecondsL1 ∧ 0 ≤ w.outOfBoundsSecondsL2 ∧ 0 ≤ w.outOfBoundsSecondsL3 ∧
      (s.buffer.length ≤ 60 →
        w.outOfBoundsSecondsL1 ≤ 600 ∧ w.outOfBoundsSecondsL2 ≤ 600 ∧
        w.outOfBoundsSecondsL3 ≤ 600) := by
  intro s r w hpoll hne hprod
  have hagg : ∃ cur, w = aggregateWindow s.buffer cur 10 := by
    rcases hprod with hprod | hprod
    · cases hc : s.currentWindowStart with
      | none =>
        rw [addReading_none s r hc] at hprod
        simp at hprod
      | some cur =>
        by_cases heq : getWindowStart r.timestamp = cur
        · rw [addReading_same s r cur hc heq] at hprod
          simp at hprod
        · rw [addReading_diff s r cur hc heq, hpoll] at hprod
          simp only [Option.some.injEq] at hprod
          exact ⟨cur, hprod.symm⟩
    · cases hc : s.currentWindowStart with
      | none =>
        rw [flush_idle s (Or.inl hc)] at hprod
        simp at hprod
      | some cur =>
        rw [flush_close s cur hc hne, hpoll] at hprod
        simp only [Option.some.injEq] at hprod
        exact ⟨cur, hprod.symm⟩
  obtain ⟨cur, rfl⟩ := hagg
  have hni : s.buffer.isEmpty = false := by
    simp [List.isEmpty_iff, hne]
  rw [aggregateWindow_ne _ _ _ hni]
  have hc1 := List.countP_le_length
    (fun x : VoltageReading => !isVoltageInBounds x.voltage_l1) (l := s.buffer)
  have hc2 := List.countP_le_length
    (fun x : VoltageReading => !isVoltageInBounds x.voltage_l2) (l := s.buffer)
  have hc3 := List.countP_le_length
    (fun x : VoltageReading => !isVoltageInBounds x.voltage_l3) (l := s.buffer)
  refine ⟨by simp [ESO.WINDOW_SECONDS, getWindowEnd], ?_, ?_, ?_, rfl, rfl, rfl, ?_, ?_, ?_, ?_⟩
  · simp [ESO.WINDOW_OOB_MAX_SECONDS]
  · simp [ESO.WINDOW_OOB_MAX_SECONDS]
  · simp [ESO.WINDOW_OOB_MAX_SECONDS]
  · show (0 : ℚ) ≤ (s.buffer.countP (fun x => !isVoltageInBounds x.voltage_l1) : ℚ) * 10
    positivity
  · show (0 : ℚ) ≤ (s.buffer.countP (fun x => !isVoltageInBounds x.voltage_l2) : ℚ) * 10
    positivity
  · show (0 : ℚ) ≤ (s.buffer.countP (fun x => !isVoltageInBounds x.voltage_l3) : ℚ) * 10
    positivity
  · intro hlen
    have b1 : (s.buffer.countP (fun x => !isVoltageInBounds x.voltage_l1) : ℚ) ≤ 60 := by
      exact_mod_cast Nat.cast_le.mpr (le_trans hc1 hlen)
    have b2 : (s.buffer.countP (fun x => !isVoltageInBounds x.voltage_l2) : ℚ) ≤ 60 := by
      exact_mod_cast Nat.cast_le.mpr (le_trans hc2 hlen)
    have b3 : (s.buffer.countP (fun x => !isVoltageInBounds x.voltage_l3) : ℚ) ≤ 60 := by
      exact_mod_cast Nat.cast_le.mpr (le_trans hc3 hlen)
    refine ⟨?_, ?_, ?_⟩
    · show (s.buffer.countP (fun x => !isVoltageInBounds x.voltage_l1) : ℚ) * 10 ≤ 600
      nlinarith
    · show (s.buffer.countP (fun x => !isVoltageInBounds x.voltage_l2) : ℚ) * 10 ≤ 600
      nlinarith
    · show (s.buffer.countP (fun x => !isVoltageInBounds x.voltage_l3) : ℚ) * 10 ≤ 600
      nlinarith

/-- C1 witness: the amended invariants evaluated on a concrete completed
window (one buffered in-bounds reading, closed by a reading in the next
slot). -/
theorem C1_amended_window_invariants_witness :
    ((WindowManagerState.addReading
        { currentWindowStart := some 0
          buffer := [{ timestamp := 0, voltage_l1 := 230, voltage_l2 := 230, voltage_l3 := 230 }]
          pollIntervalSeconds := 10 }
        { timestamp := 600000, voltage_l1 := 230, voltage_l2 := 230, voltage_l3 := 230 }).2 =
      some (aggregateWindow
        [{ timestamp := 0, voltage_l1 := 230, voltage_l2 := 230, voltage_l3 := 230 }] 0 10)) ∧
    (aggregateWindow
        [{ timestamp := 0, voltage_l1 := 230, voltage_l2 := 230, voltage_l3 := 230 }]
        0 10).windowEnd =
      (aggregateWindow
        [{ timestamp := 0, voltage_l1 := 230, voltage_l2 := 230, voltage_l3 := 230 }]
        0 10).windowStart + 600 * 1000 ∧
    0 ≤ (aggregateWindow
        [{ timestamp := 0, voltage_l1 := 230, voltage_l2 := 230, voltage_l3 := 230 }]
        0 10).outOfBoundsSecondsL1 := by
  have hprod : (WindowManagerState.addReading
      { currentWindowStart := some 0
        buffer := [{ timestamp := 0, voltage_l1 := 230, voltage_l2 := 230, voltage_l3 := 230 }]
        pollIntervalSeconds := 10 }
      { timestamp := 600000, voltage_l1 := 230, voltage_l2 := 230, voltage_l3 := 230 }).2 =
      some (aggregateWindow
        [{ timestamp := 0, voltage_l1 := 230, voltage_l2 := 230, voltage_l3 := 230 }] 0 10) := by
    rw [addReading_diff _ _ 0 rfl (by decide)]
  have h := C1_amended_window_invariants
    { currentWindowStart := some 0
      buffer := [{ timestamp := 0, voltage_l1 := 230, voltage_l2 := 230, voltage_l3 := 230 }]
      pollIntervalSeconds := 10 }
    { timestamp := 600000, voltage_l1 := 230, voltage_l2 := 230, voltage_l3 := 230 }
    (aggregateWindow
      [{ timestamp := 0, voltage_l1 := 230, voltage_l2 := 230, voltage_l3 := 230 }] 0 10)
    rfl (by simp) (Or.inl hprod)
  exact ⟨hprod, h.1, h.2.2.2.2.2.2.2.1⟩

/- Kind classification of the anomaly constructors. -/

lemma isInterruptionKind_createInterruption (phase : Phase) (t0 t : ℕ) (v : ℚ) :
    isInterruptionKind (createInterruptionAnomaly phase t0 t v) = true := by
  simp only [createInterruptionAnomaly, classifyInterruption]
  split
  · rfl
  · rfl

lemma isInterruptionKind_createDeviation (phase : Phase) (t : ℕ) (v : ℚ) :
    isInterruptionKind (createDeviationAnomaly phase t v) = false := rfl

lemma isInterruptionKind_mk_dev (s : ℕ) (e : Option ℕ) (ph : Phase) (sev : Severity)
    (vmin vmax : Option ℚ) (d : Option ℚ) :
    isInterruptionKind
      { startedAt := s, endedAt := e, phase := ph, type := AnomalyType.VOLTAGE_DEVIATION
        severity := sev, voltageMin := vmin, voltageMax := vmax, durationSeconds := d }
      = false := rfl

/-- C3 (confirmed): an interruption anomaly is emitted by the tracker's
per-phase step exactly on a reading where voltage recovers (non-zero while
an interruption with a recorded start is ongoing); the emitted anomaly has
`duration_s = (recovery ts − started_at)/1000`, `v_min = 0`, `v_max` the
recovery voltage, and is LONG_INTERRUPTION/CRITICAL iff the duration
exceeds 180 s, else SHORT_INTERRUPTION/WARNING; on any other reading no
interruption-kind anomaly is emitted. -/
theorem C3_interruption_on_recovery :
    (∀ (ps : PhaseState) (now : ℕ) (v : ℚ) (phase : Phase) (t0 : ℕ),
      ps.interruption.ongoing = true → ps.interruption.startedAt = some t0 →
      isVoltageZero v = false →
      (processPhase ps now v phase).2.filter isInterruptionKind
        = [createInterruptionAnomaly phase t0 now v]) ∧
    (∀ (phase : Phase) (t0 now : ℕ) (v : ℚ),
      createInterruptionAnomaly phase t0 now v =
        { startedAt := t0
          endedAt := some now
          phase := phase
          type := if 180 < ((now : ℚ) - (t0 : ℚ)) / 1000 then AnomalyType.LONG_INTERRUPTION
                  else AnomalyType.SHORT_INTERRUPTION
          severity := if 180 < ((now : ℚ) - (t0 : ℚ)) / 1000 then Severity.CRITICAL
                      else Severity.WARNING
          voltageMin := some 0
          voltageMax := some v
          durationSeconds := some (((now : ℚ) - (t0 : ℚ)) / 1000) }) ∧
    (∀ (ps : PhaseState) (now : ℕ) (v : ℚ) (phase : Phase),
      isVoltageZero v = true ∨ ps.interruption.ongoing = false ∨
        ps.interruption.startedAt = none →
      (processPhase ps now v phase).2.filter isInterruptionKind = []) := by
  refine ⟨?_, ?_, ?_⟩
  · intro ps now v phase t0 hong hstart hz
    obtain ⟨⟨iong, istart⟩, ⟨dong, dstart, dmin, dmax⟩⟩ := ps
    simp only at hong hstart
    subst hong
    subst hstart
    simp only [processPhase, hz, Bool.false_eq_true, if_false]
    by_cases hb : isVoltageInBounds v = true <;>
      cases dong <;>
      cases dstart <;>
        simp [hb, List.filter_cons, List.filter_nil,
          isInterruptionKind_createInterruption, isInterruptionKind_createDeviation,
          isInterruptionKind_mk_dev]
  · intro phase t0 now v
    simp only [createInterruptionAnomaly, classifyInterruption, ESO.LONG_INTERRUPTION_SECONDS]
    split
    · simp
    · simp
  · intro ps now v phase h
    obtain ⟨⟨iong, istart⟩, ⟨dong, dstart, dmin, dmax⟩⟩ := ps
    rcases h with hz | hio | his
    · simp [processPhase, hz]
    · simp only at hio
      subst hio
      by_cases hz : isVoltageZero v = true
      · simp [processPhase, hz]
      · simp only [Bool.not_eq_true] at hz
        simp only [processPhase, hz, Bool.false_eq_true, if_false]
        cases istart <;>
          by_cases hb : isVoltageInBounds v = true <;>
          cases dong <;>
          cases dstart <;>
            simp [hb, List.filter_cons, List.filter_nil,
              isInterruptionKind_createDeviation, isInterruptionKind_mk_dev]
    · simp only at his
      subst his
      by_cases hz : isVoltageZero v = true
      · simp [processPhase, hz]
      · simp only [Bool.not_eq_true] at hz
        simp only [processPhase, hz, Bool.false_eq_true, if_false]
        cases iong <;>
          by_cases hb : isVoltageInBounds v = true <;>
          cases dong <;>
          cases dstart <;>
            simp [hb, List.filter_cons, List.filter_nil,
              isInterruptionKind_createDeviation, isInterruptionKind_mk_dev]

/-- C3 witness: recovery at 230 V after an interruption started at 0 and
resolved at 200 s emits exactly one interruption anomaly, and its
classification is LONG/CRITICAL since 200 s > 180 s. -/
theorem C3_interruption_on_recovery_witness :
    ((processPhase
        { interruption := { ongoing := true, startedAt := some 0 }
          deviation := { ongoing := false, startedAt := none, voltageMin := none, voltageMax := none } }
        200000 230 Phase.L1).2.filter isInterruptionKind
      = [createInterruptionAnomaly Phase.L1 0 200000 230]) ∧
    (createInterruptionAnomaly Phase.L1 0 200000 230).type = AnomalyType.LONG_INTERRUPTION ∧
    (createInterruptionAnomaly Phase.L1 0 200000 230).severity = Severity.CRITICAL ∧
    (createInterruptionAnomaly Phase.L1 0 200000 230).durationSeconds = some 200 := by
  refine ⟨C3_interruption_on_recovery.1 _ 200000 230 Phase.L1 0 rfl rfl (by decide), ?_, ?_, ?_⟩
  · rw [C3_interruption_on_recovery.2.1 Phase.L1 0 200000 230]
    norm_num
  · rw [C3_interruption_on_recovery.2.1 Phase.L1 0 200000 230]
    norm_num
  · rw [C3_interruption_on_recovery.2.1 Phase.L1 0 200000 230]
    norm_num

/- Decomposition lemmas for the single-phase driver `runPhase`. -/

lemma runPhase_acc (phase : Phase) (inputs : List (ℕ × ℚ)) :
    ∀ (ps : PhaseState) (as : List DetectedAnomaly),
    inputs.foldl (fun acc tv =>
        let res := processPhase acc.1 tv.1 tv.2 phase
        (res.1, acc.2 ++ res.2)) (ps, as)
      = ((runPhase ps phase inputs).1, as ++ (runPhase ps phase inputs).2) := by
  induction inputs with
  | nil =>
    intro ps as
    simp [runPhase]
  | cons tv t ih =>
    intro ps as
    simp only [List.foldl_cons]
    rw [ih]
    conv_rhs => rw [runPhase]
    simp only [List.foldl_cons]
    rw [ih]
    simp [runPhase, List.append_assoc]

lemma runPhase_cons (ps : PhaseState) (phase : Phase) (tv : ℕ × ℚ) (t : List (ℕ × ℚ)) :
    runPhase ps phase (tv :: t) =
      ((runPhase (processPhase ps tv.1 tv.2 phase).1 phase t).1,
       (processPhase ps tv.1 tv.2 phase).2 ++
         (runPhase (processPhase ps tv.1 tv.2 phase).1 phase t).2) := by
  unfold runPhase
  simp only [List.foldl_cons]
  rw [runPhase_acc]
  simp [runPhase]

lemma runPhase_append (ps : PhaseState) (phase : Phase) (l1 l2 : List (ℕ × ℚ)) :
    runPhase ps phase (l1 ++ l2) =
      ((runPhase (runPhase ps phase l1).1 phase l2).1,
       (runPhase ps phase l1).2 ++ (runPhase (runPhase ps phase l1).1 phase l2).2) := by
  unfold runPhase
  rw [List.foldl_append]
  rw [show (l1.foldl (fun acc tv =>
      let res := processPhase acc.1 tv.1 tv.2 phase
      (res.1, acc.2 ++ res.2)) (ps, ([] : List DetectedAnomaly)))
    = ((runPhase ps phase l1).1, [] ++ (runPhase ps phase l1).2) from runPhase_acc phase l1 ps []]
  rw [runPhase_acc]
  simp [runPhase]

/-- The consistency invariant of a tracker phase state: an ongoing
interruption has a recorded start and excludes an ongoing deviation, and an
ongoing deviation has a recorded start. -/
def PhaseInv (ps : PhaseState) : Prop :=
  (ps.interruption.ongoing = true →
    ps.interruption.startedAt ≠ none ∧ ps.deviation.ongoing = false) ∧
  (ps.deviation.ongoing = true → ps.deviation.startedAt ≠ none)

lemma phaseInv_init : PhaseInv initPhaseState := by
  constructor
  · intro h
    simp [initPhaseState] at h
  · intro h
    simp [initPhaseState] at h

lemma processPhase_inv (ps : PhaseState) (now : ℕ) (v : ℚ) (phase : Phase)
    (h : PhaseInv ps) : PhaseInv (processPhase ps now v phase).1 := by
  obtain ⟨⟨iong, istart⟩, ⟨dong, dstart, dmin, dmax⟩⟩ := ps
  by_cases hz : isVoltageZero v = true
  · simp only [processPhase, hz, if_true]
    cases iong <;> cases dong
    · refine ⟨?_, ?_⟩ <;> simp
    · rcases dstart with _ | td
      · exact absurd (h.2 rfl) (by simp)
      · refine ⟨?_, ?_⟩ <;> simp
    · refine ⟨fun _ => ⟨?_, ?_⟩, ?_⟩ <;> simp_all [PhaseInv]
    · rcases dstart with _ | td
      · exact absurd (h.2 rfl) (by simp)
      · refine ⟨fun _ => ⟨?_, ?_⟩, ?_⟩ <;> simp_all [PhaseInv]
  · simp only [Bool.not_eq_true] at hz
    simp only [processPhase, hz, Bool.false_eq_true, if_false]
    rcases iong with _ | _ <;> rcases istart with _ | t0 <;>
      by_cases hb : isVoltageInBounds v = true <;>
      rcases dong with _ | _ <;> rcases dstart with _ | td <;>
        simp_all [PhaseInv]

lemma runPhase_inv (phase : Phase) (inputs : List (ℕ × ℚ)) :
    ∀ (ps : PhaseState), PhaseInv ps → PhaseInv (runPhase ps phase inputs).1 := by
  induction inputs with
  | nil =>
    intro ps h
    simpa [runPhase] using h
  | cons tv t ih =>
    intro ps h
    rw [runPhase_cons]
    exact ih _ (processPhase_inv ps tv.1 tv.2 phase h)

lemma isDeviationOpen_createInterruption (phase : Phase) (t0 t : ℕ) (v : ℚ) :
    isDeviationOpen (createInterruptionAnomaly phase t0 t v) = false := by
  simp only [createInterruptionAnomaly, classifyInterruption]
  split
  · rfl
  · rfl

lemma isDeviationOpen_createDeviation (phase : Phase) (t : ℕ) (v : ℚ) :
    isDeviationOpen (createDeviationAnomaly phase t v) = true := rfl

lemma isDeviationOpen_mk_dev_closed (s t : ℕ) (ph : Phase) (sev : Severity)
    (vmin vmax : Option ℚ) (d : Option ℚ) :
    isDeviationOpen
      { startedAt := s, endedAt := some t, phase := ph, type := AnomalyType.VOLTAGE_DEVIATION
        severity := sev, voltageMin := vmin, voltageMax := vmax, durationSeconds := d }
      = false := rfl

/-- C7 (confirmed): for any tracker phase state reachable from the initial
state, a reading that closes an interruption (some interruption-kind anomaly
is emitted for it) carries an opening-deviation anomaly in the same step iff
the recovery voltage is itself out of bounds. -/
theorem C7_dev_open_only_if_recovery_oob :
    ∀ (inputs : List (ℕ × ℚ)) (phase : Phase) (now : ℕ) (v : ℚ),
      ((processPhase (runPhase initPhaseState phase inputs).1 now v phase).2.any
          isInterruptionKind = true) →
      (((processPhase (runPhase initPhaseState phase inputs).1 now v phase).2.any
          isDeviationOpen = true) ↔ isVoltageInBounds v = false) := by
  intro inputs phase now v hint
  have hInv : PhaseInv (runPhase initPhaseState phase inputs).1 :=
    runPhase_inv phase inputs initPhaseState phaseInv_init
  set σ := (runPhase initPhaseState phase inputs).1 with hσ
  clear_value σ
  obtain ⟨⟨iong, istart⟩, ⟨dong, dstart, dmin, dmax⟩⟩ := σ
  by_cases hz : isVoltageZero v = true
  · simp only [processPhase, hz, if_true, List.any_nil] at hint
    exact absurd hint (by simp)
  · simp only [Bool.not_eq_true] at hz
    simp only [processPhase, hz, Bool.false_eq_true, if_false] at hint ⊢
    rcases iong with _ | _
    · exfalso
      rcases istart with _ | t0 <;>
        by_cases hb : isVoltageInBounds v = true <;>
        rcases dong with _ | _ <;> rcases dstart with _ | td <;>
          simp_all [List.any_cons, List.any_nil, isInterruptionKind_createDeviation,
            isInterruptionKind_mk_dev]
    · rcases istart with _ | t0
      · exfalso
        by_cases hb : isVoltageInBounds v = true <;>
          rcases dong with _ | _ <;> rcases dstart with _ | td <;>
            simp_all [List.any_cons, List.any_nil, isInterruptionKind_createDeviation,
              isInterruptionKind_mk_dev]
      · have hdong : dong = false := by
          have := (hInv.1 rfl).2
          simpa using this
        subst hdong
        by_cases hb : isVoltageInBounds v = true <;>
          simp_all [List.any_cons, List.any_nil, isDeviationOpen_createInterruption,
            isDeviationOpen_createDeviation]

/-- C7 witness: after an interruption opened by a zero reading at t = 0,
an in-bounds recovery at 230 V emits the interruption close, and an
opening-deviation anomaly is present iff 230 V is out of bounds (it is not). -/
theorem C7_dev_open_only_if_recovery_oob_witness :
    ((processPhase (runPhase initPhaseState Phase.L1 [(0, 0)]).1 10000 230 Phase.L1).2.any
        isInterruptionKind = true) ∧
    (((processPhase (runPhase initPhaseState Phase.L1 [(0, 0)]).1 10000 230 Phase.L1).2.any
        isDeviationOpen = true) ↔ isVoltageInBounds (230 : ℚ) = false) := by
  have hint : ((processPhase (runPhase initPhaseState Phase.L1 [(0, 0)]).1 10000 230
      Phase.L1).2.any isInterruptionKind = true) := by
    norm_num [runPhase, processPhase, initPhaseState, isVoltageZero, isVoltageInBounds,
      ESO.VOLTAGE_ZERO_THRESHOLD, ESO.VOLTAGE_MIN_1PH, ESO.VOLTAGE_MAX_1PH,
      List.any_cons, List.any_nil, isInterruptionKind_createInterruption]
  exact ⟨hint, C7_dev_open_only_if_recovery_oob [(0, 0)] Phase.L1 10000 230 hint⟩

/- Single-step characterisations of the deviation machine (interruption
machine idle). -/

lemma processPhase_dev_open (i : InterruptionState) (dstart : Option ℕ)
    (dmin dmax : Option ℚ) (now : ℕ) (v : ℚ) (phase : Phase)
    (hi : i.ongoing = false) (hb : isVoltageInBounds v = false)
    (hz : isVoltageZero v = false) :
    processPhase
        { interruption := i
          deviation := { ongoing := false, startedAt := dstart
                         voltageMin := dmin, voltageMax := dmax } } now v phase
      = ({ interruption := i
           deviation := { ongoing := true, startedAt := some now
                          voltageMin := some v, voltageMax := some v } },
         [createDeviationAnomaly phase now v]) := by
  obtain ⟨iong, istart⟩ := i
  simp only at hi
  subst hi
  simp [processPhase, hz, hb]

lemma processPhase_dev_update (i : InterruptionState) (t0 now : ℕ) (a b v : ℚ)
    (phase : Phase) (hi : i.ongoing = false) (hb : isVoltageInBounds v = false)
    (hz : isVoltageZero v = false) :
    processPhase
        { interruption := i
          deviation := { ongoing := true, startedAt := some t0
                         voltageMin := some a, voltageMax := some b } } now v phase
      = ({ interruption := i
           deviation := { ongoing := true, startedAt := some t0
                          voltageMin := some (min a v), voltageMax := some (max b v) } },
         []) := by
  obtain ⟨iong, istart⟩ := i
  simp only at hi
  subst hi
  simp [processPhase, hz, hb, minWithInf, maxWithNegInf]

lemma processPhase_dev_close (i : InterruptionState) (t0 now : ℕ)
    (dmin dmax : Option ℚ) (v : ℚ) (phase : Phase)
    (hi : i.ongoing = false) (hb : isVoltageInBounds v = true) :
    processPhase
        { interruption := i
          deviation := { ongoing := true, startedAt := some t0
                         voltageMin := dmin, voltageMax := dmax } } now v phase
      = ({ interruption := i
           deviation := { ongoing := false, startedAt := none
                          voltageMin := none, voltageMax := none } },
         [{ startedAt := t0, endedAt := some now, phase := phase
            type := AnomalyType.VOLTAGE_DEVIATION, severity := Severity.WARNING
            voltageMin := dmin, voltageMax := dmax
            durationSeconds := some (((now : ℚ) - (t0 : ℚ)) / 1000) }]) := by
  obtain ⟨iong, istart⟩ := i
  simp only at hi
  subst hi
  simp [processPhase, inBounds_not_zero hb, hb]

/-- Running the deviation machine over a run of out-of-bounds non-zero
samples only tracks the running minimum and maximum and emits nothing. -/
lemma runPhase_oob_tracks (phase : Phase) (vs : List (ℕ × ℚ)) :
    ∀ (i : InterruptionState) (t0 : ℕ) (a b : ℚ), i.ongoing = false →
    (∀ tv ∈ vs, isVoltageInBounds tv.2 = false ∧ isVoltageZero tv.2 = false) →
    runPhase
        { interruption := i
          deviation := { ongoing := true, startedAt := some t0
                         voltageMin := some a, voltageMax := some b } } phase vs
      = ({ interruption := i
           deviation := { ongoing := true, startedAt := some t0
                          voltageMin := some (vs.foldl (fun x tv => min x tv.2) a)
                          voltageMax := some (vs.foldl (fun x tv => max x tv.2) b) } },
         []) := by
  induction vs with
  | nil =>
    intro i t0 a b hi h
    simp [runPhase]
  | cons tv t ih =>
    intro i t0 a b hi h
    have h1 := h tv (List.mem_cons_self tv t)
    rw [runPhase_cons, processPhase_dev_update i t0 tv.1 a b tv.2 phase hi h1.1 h1.2]
    rw [ih i t0 (min a tv.2) (max b tv.2) hi (fun x hx => h x (List.mem_cons_of_mem tv hx))]
    simp

/-- C2 (corrected): a deviation episode consisting of out-of-bounds non-zero
readings that is resolved by an in-bounds reading emits exactly two
anomalies: the opening event at the first reading (with `ended_at = null`)
and the closing event at the resolving reading, whose `ended_at` is the
resolving timestamp and whose `v_min`/`v_max` are the minimum and maximum of
the voltages observed during the episode.  (An episode terminated by a zero
reading instead emits only the opening event — see the counterexample.)
The start state may be any state with both machines idle. -/
theorem C2_amended_episode_two_anomalies (phase : Phase) (ps : PhaseState) (t0 : ℕ)
    (v0 : ℚ) (rest : List (ℕ × ℚ)) (tEnd : ℕ) (vEnd : ℚ)
    (hio : ps.interruption.ongoing = false) (hdo : ps.deviation.ongoing = false)
    (hb0 : isVoltageInBounds v0 = false) (hz0 : isVoltageZero v0 = false)
    (hrest : ∀ tv ∈ rest, isVoltageInBounds tv.2 = false ∧ isVoltageZero tv.2 = false)
    (hend : isVoltageInBounds vEnd = true) :
    runPhase ps phase (((t0, v0) :: rest) ++ [(tEnd, vEnd)]) =
      ({ interruption := ps.interruption
         deviation := { ongoing := false, startedAt := none
                        voltageMin := none, voltageMax := none } },
       [createDeviationAnomaly phase t0 v0,
        { startedAt := t0, endedAt := some tEnd, phase := phase
          type := AnomalyType.VOLTAGE_DEVIATION, severity := Severity.WARNING
          voltageMin := (v0 :: rest.map Prod.snd).min?
          voltageMax := (v0 :: rest.map Prod.snd).max?
          durationSeconds := some (((tEnd : ℚ) - (t0 : ℚ)) / 1000) }]) ∧
    (createDeviationAnomaly phase t0 v0).endedAt = none := by
  obtain ⟨⟨iong, istart⟩, ⟨dong, dstart, dmin, dmax⟩⟩ := ps
  simp only at hio hdo
  subst hio
  subst hdo
  refine ⟨?_, rfl⟩
  have h1 : runPhase
      { interruption := { ongoing := false, startedAt := istart }
        deviation := { ongoing := false, startedAt := dstart
                       voltageMin := dmin, voltageMax := dmax } } phase ((t0, v0) :: rest)
      = ({ interruption := { ongoing := false, startedAt := istart }
           deviation := { ongoing := true, startedAt := some t0
                          voltageMin := some (rest.foldl (fun x tv => min x tv.2) v0)
                          voltageMax := some (rest.foldl (fun x tv => max x tv.2) v0) } },
         [createDeviationAnomaly phase t0 v0]) := by
    rw [runPhase_cons]
    dsimp only
    rw [processPhase_dev_open ⟨false, istart⟩ dstart dmin dmax t0 v0 phase rfl hb0 hz0]
    dsimp only
    rw [runPhase_oob_tracks phase rest ⟨false, istart⟩ t0 v0 v0 rfl hrest]
    simp
  have h2 : runPhase
      { interruption := { ongoing := false, startedAt := istart }
        deviation := { ongoing := true, startedAt := some t0
                       voltageMin := some (rest.foldl (fun x tv => min x tv.2) v0)
                       voltageMax := some (rest.foldl (fun x tv => max x tv.2) v0) } }
      phase [(tEnd, vEnd)]
      = ({ interruption := { ongoing := false, startedAt := istart }
           deviation := { ongoing := false, startedAt := none
                          voltageMin := none, voltageMax := none } },
         [{ startedAt := t0, endedAt := some tEnd, phase := phase
            type := AnomalyType.VOLTAGE_DEVIATION, severity := Severity.WARNING
            voltageMin := some (rest.foldl (fun x tv => min x tv.2) v0)
            voltageMax := some (rest.foldl (fun x tv => max x tv.2) v0)
            durationSeconds := some (((tEnd : ℚ) - (t0 : ℚ)) / 1000) }]) := by
    rw [runPhase_cons]
    dsimp only
    rw [processPhase_dev_close ⟨false, istart⟩ t0 tEnd
      (some (rest.foldl (fun x tv => min x tv.2) v0))
      (some (rest.foldl (fun x tv => max x tv.2) v0)) vEnd phase rfl hend]
    simp [runPhase]
  rw [runPhase_append, h1]
  dsimp only
  rw [h2]
  have hmin : (v0 :: rest.map Prod.snd).min?
      = some (rest.foldl (fun x tv => min x tv.2) v0) := by
    show some ((rest.map Prod.snd).foldl min v0) = _
    rw [List.foldl_map]
  have hmax : (v0 :: rest.map Prod.snd).max?
      = some (rest.foldl (fun x tv => max x tv.2) v0) := by
    show some ((rest.map Prod.snd).foldl max v0) = _
    rw [List.foldl_map]
  rw [hmin, hmax]
  simp

/-- C2 witness: the spec's S3 scenario — 245 V then 248 V then 230 V on one
phase emits exactly the open event and the close event with extremes 245 and
248 and duration 20 s. -/
theorem C2_amended_episode_two_anomalies_witness :
    runPhase initPhaseState Phase.L1 [(0, 245), (10000, 248), (20000, 230)] =
      ({ interruption := initPhaseState.interruption
         deviation := { ongoing := false, startedAt := none
                        voltageMin := none, voltageMax := none } },
       [createDeviationAnomaly Phase.L1 0 245,
        { startedAt := 0, endedAt := some 20000, phase := Phase.L1
          type := AnomalyType.VOLTAGE_DEVIATION, severity := Severity.WARNING
          voltageMin := ((245 : ℚ) :: [(10000, (248 : ℚ))].map Prod.snd).min?
          voltageMax := ((245 : ℚ) :: [(10000, (248 : ℚ))].map Prod.snd).max?
          durationSeconds := some ((((20000 : ℕ) : ℚ) - ((0 : ℕ) : ℚ)) / 1000) }]) ∧
    ((245 : ℚ) :: [(10000, (248 : ℚ))].map Prod.snd).min? = some 245 ∧
    ((245 : ℚ) :: [(10000, (248 : ℚ))].map Prod.snd).max? = some 248 ∧
    ((((20000 : ℕ) : ℚ) - ((0 : ℕ) : ℚ)) / 1000) = 20 := by
  refine ⟨?_, by norm_num [List.min?], by norm_num [List.max?], by norm_num⟩
  exact (C2_amended_episode_two_anomalies Phase.L1 initPhaseState 0 245
    [(10000, 248)] 20000 230 rfl rfl (by decide) (by decide)
    (by decide) (by decide)).1

/-- The readings of the C2 counterexample: an out-of-bounds episode on L1
(250 V) is terminated by a zero reading (supply lost), then the supply
recovers in-bounds. -/
def c2CexReadings : List VoltageReading :=
  [{ timestamp := 0, voltage_l1 := 250, voltage_l2 := 230, voltage_l3 := 230 },
   { timestamp := 10000, voltage_l1 := 0, voltage_l2 := 230, voltage_l3 := 230 },
   { timestamp := 20000, voltage_l1 := 230, voltage_l2 := 230, voltage_l3 := 230 }]

/-- C2 counterexample: the maximal out-of-bounds non-zero run on L1 consists
of the single 250 V reading; it is over after the run (the final tracker
state has no ongoing deviation), yet the tracker emitted exactly ONE
deviation anomaly for it (the opening event) — the zero reading closed the
episode silently and the recovery produced only a SHORT_INTERRUPTION — so
the episode does not get the two anomalies the claim requires. -/
theorem C2_cex_zero_terminated_episode :
    (processAll initTracker c2CexReadings).2 =
      [createDeviationAnomaly Phase.L1 0 250,
       createInterruptionAnomaly Phase.L1 10000 20000 230] ∧
    (createInterruptionAnomaly Phase.L1 10000 20000 230).type
      = AnomalyType.SHORT_INTERRUPTION ∧
    ((processAll initTracker c2CexReadings).1.l1.deviation.ongoing = false) := by
  refine ⟨?_, ?_, ?_⟩
  · norm_num [processAll, c2CexReadings, processReading, processPhase, PHASES,
      TrackerState.get, TrackerState.set, getVoltageForPhase, initTracker, initPhaseState,
      isVoltageZero, isVoltageInBounds, createInterruptionAnomaly, classifyInterruption,
      createDeviationAnomaly, ESO.VOLTAGE_ZERO_THRESHOLD, ESO.VOLTAGE_MIN_1PH,
      ESO.VOLTAGE_MAX_1PH, ESO.LONG_INTERRUPTION_SECONDS]
  · norm_num [createInterruptionAnomaly, classifyInterruption, ESO.LONG_INTERRUPTION_SECONDS]
  · norm_num [processAll, c2CexReadings, processReading, processPhase, PHASES,
      TrackerState.get, TrackerState.set, getVoltageForPhase, initTracker, initPhaseState,
      isVoltageZero, isVoltageInBounds, ESO.VOLTAGE_ZERO_THRESHOLD, ESO.VOLTAGE_MIN_1PH,
      ESO.VOLTAGE_MAX_1PH]

/- Branch characterisations of the weekly compliance evaluator. -/

lemma calculateWeeklyCompliance_nil (weekStart : ℕ) :
    calculateWeeklyCompliance [] weekStart =
      { weekStart := weekStart, weekEnd := weekStart + 7 * 24 * 3600 * 1000
        totalWindows := 0
        compliantWindowsL1 := 0, compliantWindowsL2 := 0, compliantWindowsL3 := 0
        compliancePctL1 := 0, compliancePctL2 := 0, compliancePctL3 := 0
        overallCompliant := false } := by
  simp [calculateWeeklyCompliance]

lemma calculateWeeklyCompliance_ne (windows : List RmsWindowResult) (weekStart : ℕ)
    (h : windows ≠ []) :
    calculateWeeklyCompliance windows weekStart =
      { weekStart := weekStart, weekEnd := weekStart + 7 * 24 * 3600 * 1000
        totalWindows := windows.length
        compliantWindowsL1 := windows.countP (fun w => w.compliantL1)
        compliantWindowsL2 := windows.countP (fun w => w.compliantL2)
        compliantWindowsL3 := windows.countP (fun w => w.compliantL3)
        compliancePctL1 := roundTo2
          (((windows.countP (fun w => w.compliantL1)) : ℚ) / (windows.length : ℚ) * 100)
        compliancePctL2 := roundTo2
          (((windows.countP (fun w => w.compliantL2)) : ℚ) / (windows.length : ℚ) * 100)
        compliancePctL3 := roundTo2
          (((windows.countP (fun w => w.compliantL3)) : ℚ) / (windows.length : ℚ) * 100)
        overallCompliant :=
          decide ((95 : ℚ) ≤
            ((windows.countP (fun w => w.compliantL1)) : ℚ) / (windows.length : ℚ) * 100) &&
          decide ((95 : ℚ) ≤
            ((windows.countP (fun w => w.compliantL2)) : ℚ) / (windows.length : ℚ) * 100) &&
          decide ((95 : ℚ) ≤
            ((windows.countP (fun w => w.compliantL3)) : ℚ) / (windows.length : ℚ) * 100) } := by
  have hlen : windows.length ≠ 0 := by
    simpa [List.length_eq_zero] using h
  simp only [calculateWeeklyCompliance, hlen, if_false, ESO.WEEKLY_COMPLIANCE_PCT,
    List.countP_eq_length_filter]

/-- C4 (corrected): for every window list, the stored percentage fields are
the exact percentages rounded to two decimals, and the empty list yields
zero percentages and non-compliance; but `overall_compliant` compares the
*unrounded* percentages against 95, which can disagree with comparing the
rounded fields (see the counterexample, where every rounded pct is ≥ 95 yet
`overall_compliant` is false). -/
theorem C4_amended_weekly_compliance :
    ∀ (windows : List RmsWindowResult) (weekStart : ℕ),
      ((calculateWeeklyCompliance windows weekStart).compliancePctL1 =
        roundTo2 (((windows.countP (fun w => w.compliantL1)) : ℚ) / (windows.length : ℚ) * 100)) ∧
      ((calculateWeeklyCompliance windows weekStart).compliancePctL2 =
        roundTo2 (((windows.countP (fun w => w.compliantL2)) : ℚ) / (windows.length : ℚ) * 100)) ∧
      ((calculateWeeklyCompliance windows weekStart).compliancePctL3 =
        roundTo2 (((windows.countP (fun w => w.compliantL3)) : ℚ) / (windows.length : ℚ) * 100)) ∧
      ((calculateWeeklyCompliance windows weekStart).overallCompliant = true ↔
        ((95 : ℚ) ≤ ((windows.countP (fun w => w.compliantL1)) : ℚ) / (windows.length : ℚ) * 100 ∧
         (95 : ℚ) ≤ ((windows.countP (fun w => w.compliantL2)) : ℚ) / (windows.length : ℚ) * 100 ∧
         (95 : ℚ) ≤ ((windows.countP (fun w => w.compliantL3)) : ℚ) / (windows.length : ℚ) * 100)) ∧
      (windows = [] →
        (calculateWeeklyCompliance windows weekStart).compliancePctL1 = 0 ∧
        (calculateWeeklyCompliance windows weekStart).compliancePctL2 = 0 ∧
        (calculateWeeklyCompliance windows weekStart).compliancePctL3 = 0 ∧
        (calculateWeeklyCompliance windows weekStart).overallCompliant = false) := by
  intro windows weekStart
  by_cases h : windows = []
  · subst h
    rw [calculateWeeklyCompliance_nil]
    refine ⟨by norm_num [roundTo2], by norm_num [roundTo2], by norm_num [roundTo2], ?_, ?_⟩
    · simp only [List.countP_nil, List.length_nil, Nat.cast_zero]
      norm_num
    · intro _
      exact ⟨rfl, rfl, rfl, rfl⟩
  · rw [calculateWeeklyCompliance_ne windows weekStart h]
    refine ⟨rfl, rfl, rfl, ?_, fun hh => absurd hh h⟩
    simp [Bool.and_eq_true, decide_eq_true_eq, and_assoc]

/-- C4 witness: the amended statement evaluated at the empty window list. -/
theorem C4_amended_weekly_compliance_witness :
    (calculateWeeklyCompliance [] 0).compliancePctL1 = 0 ∧
    (calculateWeeklyCompliance [] 0).compliancePctL2 = 0 ∧
    (calculateWeeklyCompliance [] 0).compliancePctL3 = 0 ∧
    (calculateWeeklyCompliance [] 0).overallCompliant = false :=
  (C4_amended_weekly_compliance [] 0).2.2.2.2 rfl

/-- A fully compliant window for the C4 counterexample. -/
def c4GoodWindow : RmsWindowResult :=
  { windowStart := 0, windowEnd := 600000, sampleCount := 60
    outOfBoundsSecondsL1 := 0, outOfBoundsSecondsL2 := 0, outOfBoundsSecondsL3 := 0
    compliantL1 := true, compliantL2 := true, compliantL3 := true }

/-- A window that fails on L1 only, for the C4 counterexample. -/
def c4BadWindow : RmsWindowResult :=
  { windowStart := 0, windowEnd := 600000, sampleCount := 60
    outOfBoundsSecondsL1 := 40, outOfBoundsSecondsL2 := 0, outOfBoundsSecondsL3 := 0
    compliantL1 := false, compliantL2 := true, compliantL3 := true }

/-- 1019 windows of which 968 are compliant on L1: the raw percentage is
96800/1019 ≈ 94.995 %, which rounds to 95.00. -/
def c4CexWindows : List RmsWindowResult :=
  List.replicate 968 c4GoodWindow ++ List.replicate 51 c4BadWindow

/-- C4 counterexample: on 1019 windows with 968 compliant on L1, every
stored (2-decimal-rounded) percentage field is at least 95, yet
`overall_compliant` is false — the code compares the unrounded 94.995 % with
95, so `overall_compliant ⇔ every pct ≥ 95` fails for the stored pct
fields. -/
theorem C4_cex_rounding_disagrees :
    (95 : ℚ) ≤ (calculateWeeklyCompliance c4CexWindows 0).compliancePctL1 ∧
    (95 : ℚ) ≤ (calculateWeeklyCompliance c4CexWindows 0).compliancePctL2 ∧
    (95 : ℚ) ≤ (calculateWeeklyCompliance c4CexWindows 0).compliancePctL3 ∧
    (calculateWeeklyCompliance c4CexWindows 0).overallCompliant = false := by
  have hlen : c4CexWindows.length = 1019 := by
    rw [c4CexWindows, List.length_append, List.length_replicate, List.length_replicate]
  have hc1 : c4CexWindows.countP (fun w => w.compliantL1) = 968 := by
    rw [c4CexWindows, List.countP_append, countP_replicate, countP_replicate]
    norm_num [c4GoodWindow, c4BadWindow]
  have hc2 : c4CexWindows.countP (fun w => w.compliantL2) = 1019 := by
    rw [c4CexWindows, List.countP_append, countP_replicate, countP_replicate]
    norm_num [c4GoodWindow, c4BadWindow]
  have hc3 : c4CexWindows.countP (fun w => w.compliantL3) = 1019 := by
    rw [c4CexWindows, List.countP_append, countP_replicate, countP_replicate]
    norm_num [c4GoodWindow, c4BadWindow]
  rw [calculateWeeklyCompliance_ne c4CexWindows 0
    (by intro hh; rw [hh] at hlen; simp at hlen)]
  dsimp only
  rw [hc1, hc2, hc3, hlen]
  have hraw1 : ¬((95 : ℚ) ≤ ((968 : ℕ) : ℚ) / ((1019 : ℕ) : ℚ) * 100) := by
    push_cast
    norm_num
  refine ⟨?_, ?_, ?_, ?_⟩
  · show (95 : ℚ) ≤ roundTo2 (((968 : ℕ) : ℚ) / ((1019 : ℕ) : ℚ) * 100)
    push_cast
    norm_num [roundTo2]
  · show (95 : ℚ) ≤ roundTo2 (((1019 : ℕ) : ℚ) / ((1019 : ℕ) : ℚ) * 100)
    push_cast
    norm_num [roundTo2]
  · show (95 : ℚ) ≤ roundTo2 (((1019 : ℕ) : ℚ) / ((1019 : ℕ) : ℚ) * 100)
    push_cast
    norm_num [roundTo2]
  · show (decide ((95 : ℚ) ≤ ((968 : ℕ) : ℚ) / ((1019 : ℕ) : ℚ) * 100) && _ && _) = false
    rw [decide_eq_false hraw1]
    simp

/- Ring-buffer invariants of the store. -/

lemma pushMany_inv (rs : List VoltageReading) :
    ∀ (s : VoltageState),
    s.readings.length ≤ MAX_READINGS → s.windows.length ≤ MAX_WINDOWS →
    s.anomalies.length ≤ MAX_ANOMALIES →
    (s.pushMany rs).readings.length ≤ MAX_READINGS ∧
    (s.pushMany rs).windows.length ≤ MAX_WINDOWS ∧
    (s.pushMany rs).anomalies.length ≤ MAX_ANOMALIES := by
  induction rs with
  | nil =>
    intro s h1 h2 h3
    exact ⟨h1, h2, h3⟩
  | cons r t ih =>
    intro s h1 h2 h3
    show (((s.pushReading r).1.pushMany t).readings.length ≤ MAX_READINGS ∧ _ ∧ _)
    refine ih _ ?_ ?_ ?_
    · show (trimTo MAX_READINGS (s.readings ++ [r])).length ≤ MAX_READINGS
      exact trimTo_length_le _ _
    · show (match (s.windowManager.addReading r).2 with
          | some w => trimTo MAX_WINDOWS (s.windows ++ [w])
          | none => s.windows).length ≤ MAX_WINDOWS
      cases hw : (s.windowManager.addReading r).2 with
      | none => exact h2
      | some w => exact trimTo_length_le _ _
    · show (trimTo MAX_ANOMALIES (s.anomalies ++ (processReading s.tracker r).2)).length
        ≤ MAX_ANOMALIES
      exact trimTo_length_le _ _

/-- C8 (confirmed): after any sequence of `pushReading`s from the fresh
store, the three ring buffers respect their caps (readings ≤ 86 400,
windows ≤ 2 016, anomalies ≤ 1 000); each push evicts only from the front
(the new buffer is a suffix of the old buffer plus the new entries); and the
most recently pushed reading is always retained — `latest` is overwritten
with it and it is the last element of the readings buffer. -/
theorem C8_ring_buffer_caps :
    (∀ (rs : List VoltageReading),
      (initVoltageState.pushMany rs).readings.length ≤ MAX_READINGS ∧
      (initVoltageState.pushMany rs).windows.length ≤ MAX_WINDOWS ∧
      (initVoltageState.pushMany rs).anomalies.length ≤ MAX_ANOMALIES) ∧
    (∀ (s : VoltageState) (r : VoltageReading),
      (s.pushReading r).1.latest = some r ∧
      (s.pushReading r).1.readings.getLast? = some r ∧
      (s.pushReading r).1.readings <:+ s.readings ++ [r] ∧
      (s.pushReading r).1.anomalies <:+ s.anomalies ++ (processReading s.tracker r).2 ∧
      (s.pushReading r).1.windows <:+
        s.windows ++ ((s.windowManager.addReading r).2).toList) := by
  constructor
  · intro rs
    exact pushMany_inv rs initVoltageState (by simp [initVoltageState])
      (by simp [initVoltageState]) (by simp [initVoltageState])
  · intro s r
    refine ⟨rfl, ?_, ?_, ?_, ?_⟩
    · show (trimTo MAX_READINGS (s.readings ++ [r])).getLast? = some r
      rw [trimTo_getLast? MAX_READINGS (s.readings ++ [r])
        (by norm_num [MAX_READINGS]) (by simp)]
      exact List.getLast?_concat _
    · show trimTo MAX_READINGS (s.readings ++ [r]) <:+ s.readings ++ [r]
      exact trimTo_suffix _ _
    · show trimTo MAX_ANOMALIES (s.anomalies ++ (processReading s.tracker r).2) <:+
        s.anomalies ++ (processReading s.tracker r).2
      exact trimTo_suffix _ _
    · show (match (s.windowManager.addReading r).2 with
          | some w => trimTo MAX_WINDOWS (s.windows ++ [w])
          | none => s.windows) <:+ s.windows ++ ((s.windowManager.addReading r).2).toList
      cases hw : (s.windowManager.addReading r).2 with
      | none =>
        simp only [Option.toList_none, List.append_nil]
        exact List.suffix_refl _
      | some w =>
        simp only [Option.toList_some]
        exact trimTo_suffix _ _

/- Properties of the downsampler. -/

lemma length_dsIdxs (m : ℤ) (n : ℕ) : (dsIdxs m n).length = m.toNat := by
  simp only [dsIdxs, List.length_map, List.length_range]

lemma length_dsResult (m : ℤ) (l : List VoltageReading) :
    ((dsIdxs m l.length).map (fun j => l.getD j dfltReading)).length = m.toNat := by
  rw [List.length_map, length_dsIdxs]

lemma downsample_take (m : ℤ) (l : List VoltageReading) :
    (downsample m l).take m.toNat
      = (dsIdxs m l.length).map (fun j => l.getD j dfltReading) := by
  simp only [downsample]
  split
  · exact List.take_of_length_le (le_of_eq (length_dsResult m l))
  · split
    · exact List.take_of_length_le (le_of_eq (length_dsResult m l))
    · exact List.take_left' (length_dsResult m l)

lemma downsample_length_le (m : ℤ) (l : List VoltageReading) :
    (downsample m l).length ≤ m.toNat + 1 := by
  simp only [downsample]
  split
  · rw [length_dsResult]
    omega
  · split
    · rw [length_dsResult]
      omega
    · rw [List.length_append, length_dsResult]
      rcases hx : l.getLast? with _ | x <;> simp [hx]

lemma downsample_getLast? (m : ℤ) (l : List VoltageReading) (h : l ≠ []) :
    (downsample m l).getLast? = l.getLast? := by
  simp only [downsample]
  split
  · next hempty => exact absurd (List.isEmpty_iff.mp hempty) h
  · split
    · next hlast =>
      rw [List.getLast?_map, hlast]
      simp only [Option.map_some']
      rw [List.getD_eq_getElem?_getD, ← List.getLast?_eq_getElem?]
      rw [List.getLast?_eq_getLast l h]
      simp
    · have hx := List.getLast?_eq_getLast l h
      rw [hx]
      simp only [Option.toList_some]
      rw [List.getLast?_concat]

/-- C9 (corrected): `getReadingsDownsampled` returns the filtered readings
unchanged when their count is at most `max_points`; otherwise it takes the
readings at indices `⌊i · (n / max_points)⌋` for `i ∈ [0, max_points)` and
appends the final filtered reading when the loop did not already select it;
the result always contains the final reading of a non-empty filtered range,
and its length is at most `max(max_points, 0) + 1` — not `max_points + 1`,
which fails for negative `max_points` (see the counterexample). -/
theorem C9_amended_downsampling :
    (∀ (s : VoltageState) (fromTs toTs : ℕ) (m : ℤ),
      (((s.getReadings (some fromTs) (some toTs)).length : ℤ) ≤ m →
        s.getReadingsDownsampled fromTs toTs m = s.getReadings (some fromTs) (some toTs)) ∧
      (m < ((s.getReadings (some fromTs) (some toTs)).length : ℤ) →
        s.getReadingsDownsampled fromTs toTs m
          = downsample m (s.getReadings (some fromTs) (some toTs))) ∧
      (s.getReadingsDownsampled fromTs toTs m).length ≤ m.toNat + 1 ∧
      (s.getReadings (some fromTs) (some toTs) ≠ [] →
        (s.getReadingsDownsampled fromTs toTs m).getLast?
          = (s.getReadings (some fromTs) (some toTs)).getLast?)) ∧
    (∀ (m : ℤ) (l : List VoltageReading),
      (downsample m l).take m.toNat
        = (dsIdxs m l.length).map (fun j => l.getD j dfltReading) ∧
      (downsample m l).length ≤ m.toNat + 1 ∧
      (l ≠ [] → (downsample m l).getLast? = l.getLast?)) := by
  constructor
  · intro s fromTs toTs m
    by_cases hle : ((s.getReadings (some fromTs) (some toTs)).length : ℤ) ≤ m
    · refine ⟨?_, ?_, ?_, ?_⟩
      · intro _
        simp only [VoltageState.getReadingsDownsampled, if_pos hle]
      · intro hlt
        exact absurd hle (not_le.mpr hlt)
      · simp only [VoltageState.getReadingsDownsampled, if_pos hle]
        omega
      · intro _
        simp only [VoltageState.getReadingsDownsampled, if_pos hle]
    · refine ⟨?_, ?_, ?_, ?_⟩
      · intro hh
        exact absurd hh hle
      · intro _
        simp only [VoltageState.getReadingsDownsampled, if_neg hle]
      · simp only [VoltageState.getReadingsDownsampled, if_neg hle]
        exact downsample_length_le m _
      · intro hne
        simp only [VoltageState.getReadingsDownsampled, if_neg hle]
        exact downsample_getLast? m _ hne
  · intro m l
    exact ⟨downsample_take m l, downsample_length_le m l, downsample_getLast? m l⟩

/-- A store holding two readings, for the C9 witness. -/
def c9WitnessState : VoltageState :=
  { initVoltageState with
    readings := [{ timestamp := 2, voltage_l1 := 230, voltage_l2 := 230, voltage_l3 := 230 },
                 { timestamp := 5, voltage_l1 := 231, voltage_l2 := 230, voltage_l3 := 230 }] }

/-- C9 witness: with two filtered readings and `max_points = 1`, the result
is the over-budget branch, has length at most 2, and ends with the final
filtered reading. -/
theorem C9_amended_downsampling_witness :
    (c9WitnessState.getReadingsDownsampled 0 10 1
      = downsample 1 (c9WitnessState.getReadings (some 0) (some 10))) ∧
    (c9WitnessState.getReadingsDownsampled 0 10 1).length ≤ (1 : ℤ).toNat + 1 ∧
    (c9WitnessState.getReadingsDownsampled 0 10 1).getLast?
      = (c9WitnessState.getReadings (some 0) (some 10)).getLast? := by
  have h := C9_amended_downsampling.1 c9WitnessState 0 10 1
  exact ⟨h.2.1 (by decide), h.2.2.1, h.2.2.2 (by decide)⟩

/-- A store holding one reading, for the C9 counterexample. -/
def c9CexState : VoltageState :=
  { initVoltageState with
    readings := [{ timestamp := 5, voltage_l1 := 230, voltage_l2 := 230, voltage_l3 := 230 }] }

/-- C9 counterexample: with one filtered reading and `max_points = -1`, the
result holds one reading (the always-appended final point), violating the
claimed bound `length ≤ max_points + 1 = 0`. -/
theorem C9_cex_negative_maxpoints :
    (c9CexState.getReadingsDownsampled 0 10 (-1)).length = 1 ∧
    ¬(((c9CexState.getReadingsDownsampled 0 10 (-1)).length : ℤ) ≤ (-1) + 1) := by
  refine ⟨by decide, by decide⟩

/-- C10 (confirmed): for every non-empty filtered range and every
`max_points ≤ 0`, `getReadingsDownsampled` returns exactly one reading —
the last reading of the filtered range (the selection loop runs zero times
and only the always-appended final point remains). -/
theorem C10_nonpositive_maxpoints :
    ∀ (s : VoltageState) (fromTs toTs : ℕ) (m : ℤ),
      m ≤ 0 → s.getReadings (some fromTs) (some toTs) ≠ [] →
      s.getReadingsDownsampled fromTs toTs m
        = (s.getReadings (some fromTs) (some toTs)).getLast?.toList ∧
      (s.getReadingsDownsampled fromTs toTs m).length = 1 := by
  intro s fromTs toTs m hm hne
  have hpos : 0 < (s.getReadings (some fromTs) (some toTs)).length :=
    List.length_pos.mpr hne
  have hbr : ¬(((s.getReadings (some fromTs) (some toTs)).length : ℤ) ≤ m) := by
    omega
  have hidx : dsIdxs m (s.getReadings (some fromTs) (some toTs)).length = [] := by
    simp [dsIdxs, Int.toNat_of_nonpos hm]
  have hmain : s.getReadingsDownsampled fromTs toTs m
      = (s.getReadings (some fromTs) (some toTs)).getLast?.toList := by
    simp only [VoltageState.getReadingsDownsampled, if_neg hbr]
    simp only [downsample, hidx]
    split
    · next hempty => exact absurd (List.isEmpty_iff.mp hempty) hne
    · split
      · next h2 => simp at h2
      · simp
  refine ⟨hmain, ?_⟩
  rw [hmain, List.getLast?_eq_getLast _ hne]
  rfl

/-- A store holding one reading, for the C10 witness. -/
def c10WitnessState : VoltageState :=
  { initVoltageState with
    readings := [{ timestamp := 5, voltage_l1 := 250, voltage_l2 := 230, voltage_l3 := 230 }] }

/-- C10 witness: `max_points = -3` with one filtered reading returns exactly
that reading. -/
theorem C10_nonpositive_maxpoints_witness :
    c10WitnessState.getReadingsDownsampled 0 10 (-3)
      = (c10WitnessState.getReadings (some 0) (some 10)).getLast?.toList ∧
    (c10WitnessState.getReadingsDownsampled 0 10 (-3)).length = 1 := by
  exact C10_nonpositive_maxpoints c10WitnessState 0 10 (-3) (by decide) (by decide)

end Elektros
